import Mathlib

/-!
# traefik-auth-forwarder: the decision-forwarding pipeline

A shallow embedding of `server/server.go` (allowlist construction, decision
request builder, header copy in both directions, response interpretation) and
of `server/middleware/metrics.go` (the status recorder and the request
counter), followed by the properties proved about them.

Conventions of the embedding.

* `http.Header` is a Go map from names to value lists.  It is embedded as a
  list of entries; the order of the list is the order in which a `range` over
  the map visits the entries, which the Go runtime chooses freely.
* `Header.Get` and `Header.Set` go through `CanonicalMIMEHeaderKey`, as in
  `net/textproto`.
* `http.NewRequest` turns an empty method into GET, checks the method, and
  parses its target with net/url.  net/url is not part of the repository: it is
  a parameter (`parse`), which gives for a target either the parse error or the
  URL of the request as `URL.String` prints it.  Every theorem holds for every
  `parse`; `netURL` is net/url on the targets of the examples.
* `http.Client.Do` is a function from the request to either an error or a
  response; a response's `Body` is what `ioutil.ReadAll` returns on it: the
  bytes read and, when the read failed, the error.
* `http.ResponseWriter` is the server's writer: a header map, the status line
  once it has been sent, and the body bytes written so far.  Only the first
  `WriteHeader` has an effect, and it panics on a code outside 100..999; `Write`
  sends no body after a 1xx, 204 or 304 status.  A panic ends the handler and
  everything that wraps it: the run is returned with the panic value and the
  writer as it was at that moment.
* Status codes are natural numbers.
* The histogram of request durations (wall-clock time, floating point) is left
  out of the middleware; the request counter is kept.
* Logging has no effect on the reply and is left out.
-/

namespace AuthForwarder

/-! ## net/textproto: canonical header names -/

/-- Token characters of RFC 7230 (`isTokenTable` of net/textproto). -/
def validHeaderFieldByte (c : Char) : Bool :=
  c.isAlphanum || "!#$%&'*+-.^_`|~".toList.contains c

/-- The canonicalising loop of `canonicalMIMEHeaderKey`: upper case for the first
letter and for a letter after a dash, lower case for every other letter. -/
def canonicalLoop : Bool → List Char → List Char
  | _, [] => []
  | upper, c :: cs =>
    let c1 :=
      if upper && c.isLower then c.toUpper
      else if !upper && c.isUpper then c.toLower
      else c
    c1 :: canonicalLoop (c1 == '-') cs

/-- The function `textproto.CanonicalMIMEHeaderKey`: a key holding a byte that is
not a token character is returned unchanged. -/
def CanonicalMIMEHeaderKey (s : String) : String :=
  if s.toList.all validHeaderFieldByte then String.mk (canonicalLoop true s.toList) else s

/-! ## net/http: headers -/

/-- The type `http.Header`, a map from names to value lists, as its list of entries. -/
structure Header where
  entries : List (String × List String)
deriving DecidableEq, Repr

namespace Header

/-- The empty map, `make(Header)`. -/
def empty : Header := ⟨[]⟩

/-- Map indexing on a list of entries. -/
def lookupIn : List (String × List String) → String → Option (List String)
  | [], _ => none
  | (k, v) :: m, key => if k = key then some v else lookupIn m key

/-- Map indexing `h[key]` (no canonicalisation). -/
def lookup (h : Header) (key : String) : Option (List String) := lookupIn h.entries key

/-- First value of an indexed entry, the empty string when there is none. -/
def first : Option (List String) → String
  | some (v :: _) => v
  | _ => ""

/-- The method `Header.Get`: the first value under the canonical form of `key`, or the empty string. -/
def Get (h : Header) (key : String) : String := first (h.lookup (CanonicalMIMEHeaderKey key))

/-- The method `Header.Set`: the entry under the canonical form of `key` becomes the single `value`. -/
def Set (h : Header) (key value : String) : Header :=
  ⟨(CanonicalMIMEHeaderKey key, [value]) ::
    h.entries.filter (fun e => e.1 != CanonicalMIMEHeaderKey key)⟩

/-- No two entries have the same name up to case: true of every header map read
off the wire by net/http, whose reader stores each name in canonical form. -/
def CanonNodup (h : Header) : Prop :=
  (h.entries.map (fun e => CanonicalMIMEHeaderKey e.1)).Nodup

instance (h : Header) : Decidable h.CanonNodup := by
  unfold CanonNodup; infer_instance

end Header

/-! ## net/http: requests, responses, the reply writer -/

/-- Bytes of a body. -/
abbrev Bytes := List UInt8

/-- The type `http.Request`, with the fields the server reads or builds: `URL` is the
request's URL as `URL.String` prints it, `Body` is `none` for a request built
with a nil body. -/
structure Request where
  Method : String
  URL : String
  Header : Header
  Body : Option Bytes

/-- The two results of `ioutil.ReadAll`: the bytes read, and the error when the read
failed (the bytes are then what was read before the failure). -/
structure ReadAll where
  d : Bytes
  err : Option String

/-- The type `http.Response` as the handler sees it: `Body` is what
`ioutil.ReadAll(res.Body)` returns. -/
structure Response where
  StatusCode : Nat
  Header : Header
  Body : ReadAll

/-- The method `http.Client.Do` of the configured client. -/
abbrev Client := Request → Except String Response

/-- The function `validMethod` of net/http: a method is a non-empty token. -/
def validMethod (method : String) : Bool :=
  method.length > 0 && method.toList.all validHeaderFieldByte

/-- The function `http.NewRequest(method, url, nil)`: an empty method becomes GET, the method must
be valid, the target is parsed by net/url (`parse`, which returns the parsed URL as
`URL.String` prints it); the new request has an empty header map and no body. -/
def NewRequest (parse : String → Except String String) (method url : String) :
    Except String Request :=
  let method1 := if method = "" then "GET" else method
  if validMethod method1 then
    match parse url with
    | .error err => .error err
    | .ok u => .ok { Method := method1, URL := u, Header := Header.empty, Body := none }
  else .error "net/http: invalid method"

/-- The interface `http.ResponseWriter`.  `Header()` returns the writer's mutable map:
reading it is `Header`, storing a changed map back is `setHeader`.  `WriteHeader`
returns the writer afterwards and the panic value when the call panicked. -/
class ResponseWriter (W : Type) where
  Header : W → AuthForwarder.Header
  setHeader : W → AuthForwarder.Header → W
  Write : W → Bytes → W
  WriteHeader : W → Nat → W × Option String

/-- The server's own writer: the reply as the caller receives it.  `status` is `none`
until the status line is sent. -/
structure Reply where
  header : Header
  status : Option Nat
  body : Bytes

/-- The function `bodyAllowedForStatus` of net/http: no body with a 1xx, 204 or 304 status. -/
def bodyAllowedForStatus (status : Nat) : Bool :=
  !((100 ≤ status && status ≤ 199) || status = 204 || status = 304)

namespace Reply

/-- A reply on which nothing was written yet, with the headers set so far. -/
def fresh (h : Header) : Reply := { header := h, status := none, body := [] }

/-- The method `WriteHeader` of net/http's writer: once the status line is sent a later call
changes nothing; otherwise `checkWriteHeaderCode` panics on a code below 100 or
above 999, and any other code is sent. -/
def WriteHeader (w : Reply) (code : Nat) : Reply × Option String :=
  match w.status with
  | some _ => (w, none)
  | none =>
    if code < 100 ∨ code > 999 then (w, some "invalid WriteHeader code")
    else ({ w with status := some code }, none)

/-- The method `Write` of net/http's writer: a write before any `WriteHeader` sends status 200
first; the bytes are appended unless the status allows no body (the error
`ErrBodyNotAllowed`, which the caller may ignore). -/
def Write (w : Reply) (b : Bytes) : Reply :=
  let w1 := match w.status with
    | none => (w.WriteHeader 200).1
    | some _ => w
  match w1.status with
  | some status => if bodyAllowedForStatus status then { w1 with body := w1.body ++ b } else w1
  | none => w1

instance : ResponseWriter Reply where
  Header w := w.header
  setHeader w h := { w with header := h }
  Write := Write
  WriteHeader := WriteHeader

end Reply

/-! ## server/server.go -/

def xForwardedProto : String := "X-Forwarded-Proto"
def xForwardedHost : String := "X-Forwarded-Host"
def xForwardedUri : String := "X-Forwarded-Uri"
def xForwardedMethod : String := "X-Forwarded-Method"

/-- The struct `Server` (router and logger left out). -/
structure Server where
  decisionUrl : String
  copyHeaders : List String
  c : Client
  redirectURL : String

/-- The struct `Config`. -/
structure Config where
  Address : String
  ForwardAddress : String
  Headers : List String
  RedirectURL : String

/-- The order in which `range` visits the keys of a Go map: some rearrangement of
the keys, chosen by the runtime. -/
structure RangeOrder where
  visit : List String → List String
  visit_perm : ∀ keys, (visit keys).Perm keys

/-- The statement `headerSet[h] = struct{}{}` on the keys of a `map[string]struct{}`. -/
def setKey (headerSet : List String) (h : String) : List String :=
  if h ∈ headerSet then headerSet else headerSet ++ [h]

/-- The four forwarded-metadata names, `defaultHeaders` of `New`. -/
def defaultHeaders : List String :=
  [xForwardedProto, xForwardedHost, xForwardedUri, xForwardedMethod]

/-- The constructor `New`.  `order` is the runtime's iteration order over `headerSet`;
`metrics` is the outcome of `PrometheusHandler`'s set-up, whose error `New` returns. -/
def New (order : RangeOrder) (metrics : Except String Unit) (c : Client) (cfg : Config) :
    Except String Server :=
  let headerSet : List String := cfg.Headers.foldl setKey []
  let headerSet := defaultHeaders.foldl setKey headerSet
  let copyHeaders := order.visit headerSet
  let srv : Server :=
    { decisionUrl := cfg.ForwardAddress, copyHeaders := copyHeaders, c := c,
      redirectURL := cfg.RedirectURL }
  match metrics with
  | .error err => .error err
  | .ok _ => .ok srv

/-- The function `decisionRequest`: the request for the decision service, built from the forwarded
host and URI headers of the inbound request. -/
def decisionRequest (parse : String → Except String String) (inreq : Request)
    (decisionUrl : String) : Except String Request :=
  let host := inreq.Header.Get xForwardedHost
  let path := inreq.Header.Get xForwardedUri
  let url := decisionUrl ++ "/" ++ host ++ path
  match NewRequest parse inreq.Method url with
  | .error err => .error err
  | .ok outreq => .ok outreq

/-- One iteration of the loop of `copyRequestHeaders`. -/
def copyRequestHeader (inreq : Request) (outreq : Request) (h : String) : Request :=
  let v := inreq.Header.Get h
  if v.length > 0 then { outreq with Header := outreq.Header.Set h v } else outreq

/-- The method `copyRequestHeaders`: every allowlisted header with a non-empty inbound value is set
on the outgoing request. -/
def Server.copyRequestHeaders (srv : Server) (inreq outreq : Request) : Request :=
  srv.copyHeaders.foldl (copyRequestHeader inreq) outreq

/-- One iteration of the loop of `copyResponseHeaders`, on the reply's header map. -/
def copyResponseHeader (out : Header) (e : String × List String) : Header :=
  let existingHeader := out.Get e.1
  if existingHeader.length = 0 ∧ e.2.length > 0 then out.Set e.1 (String.intercalate "," e.2)
  else out

/-- The function `copyResponseHeaders`: the loop over the response's header map, in the order the
runtime visits it. -/
def copyResponseHeaders {W : Type} [ResponseWriter W] (inres : Response) (outres : W) : W :=
  ResponseWriter.setHeader outres
    (inres.Header.entries.foldl copyResponseHeader (ResponseWriter.Header outres))

/-- The method `handleResponseErrorStatus`: the body is read first; a read error gives 500, a 401
gives the redirect, any other status is relayed with the body read.  The second
component is the panic value when a `WriteHeader` panicked; the `Write` of the
last branch is then not reached. -/
def Server.handleResponseErrorStatus {W : Type} [ResponseWriter W] (srv : Server)
    (res : Response) (rw : W) : W × Option String :=
  let code := res.StatusCode
  let d := res.Body.d
  match res.Body.err with
  | some _ => ResponseWriter.WriteHeader rw 500
  | none =>
    if code = 401 then
      let rw1 :=
        ResponseWriter.setHeader rw ((ResponseWriter.Header rw).Set "Location" srv.redirectURL)
      ResponseWriter.WriteHeader rw1 307
    else
      match ResponseWriter.WriteHeader rw res.StatusCode with
      | (rw1, some p) => (rw1, some p)
      | (rw1, none) => (ResponseWriter.Write rw1 d, none)

/-- What one run of the handler did: the writer afterwards, the requests handed to
the client, what reading the response body returned when it was read, and the
panic value when the run ended in a panic. -/
structure Handled (W : Type) where
  rw : W
  sent : List Request
  read : Option ReadAll
  panic : Option String

/-- The handler returned by `decisionHandler`.  Besides the writer it returns what it did:
`sent` holds the request of the one `srv.c.Do` call when that call was made, `read`
what the `ReadAll` of `handleResponseErrorStatus` returned when that method ran,
`panic` the panic value of a `WriteHeader` that panicked. -/
def Server.decisionHandler {W : Type} [ResponseWriter W]
    (parse : String → Except String String) (srv : Server) (rw : W) (r : Request) :
    Handled W :=
  match decisionRequest parse r srv.decisionUrl with
  | .error _ =>
    let w := ResponseWriter.WriteHeader rw 500
    { rw := w.1, sent := [], read := none, panic := w.2 }
  | .ok outreq0 =>
    let outreq := srv.copyRequestHeaders r outreq0
    match srv.c outreq with
    | .error _ =>
      let w := ResponseWriter.WriteHeader rw 500
      { rw := w.1, sent := [outreq], read := none, panic := w.2 }
    | .ok res =>
      if res.StatusCode ≠ 200 then
        let w := srv.handleResponseErrorStatus res rw
        { rw := w.1, sent := [outreq], read := some res.Body, panic := w.2 }
      else
        let w := ResponseWriter.WriteHeader (copyResponseHeaders res rw) 200
        { rw := w.1, sent := [outreq], read := none, panic := w.2 }

/-! ## server/middleware/metrics.go -/

/-- The struct `statusRecorder` (start time left out): the wrapped writer and the
last status passed to `WriteHeader`. -/
structure statusRecorder (W : Type) where
  ResponseWriter : W
  Status : Nat

/-- The embedded writer supplies `Header` and `Write`; `WriteHeader` is overridden: it records
the status, then passes it on to the wrapped writer, whose panic it lets through. -/
instance {W : Type} [ResponseWriter W] : ResponseWriter (statusRecorder W) where
  Header r := ResponseWriter.Header r.ResponseWriter
  setHeader r h := { r with ResponseWriter := ResponseWriter.setHeader r.ResponseWriter h }
  Write r b := { r with ResponseWriter := ResponseWriter.Write r.ResponseWriter b }
  WriteHeader r status :=
    ({ ResponseWriter := (ResponseWriter.WriteHeader r.ResponseWriter status).1,
       Status := status },
     (ResponseWriter.WriteHeader r.ResponseWriter status).2)

/-- The counter `http_request_counts`: the count under each (destination, code) label pair. -/
abbrev Counter := String → Nat → Nat

/-- The call `counterTotalRequests.Add(ctx, n, destination, code)`. -/
def Counter.Add (cnt : Counter) (n : Nat) (destination : String) (code : Nat) : Counter :=
  fun d k => if d = destination ∧ k = code then cnt d k + n else cnt d k

/-- What one request left behind the middleware: the wrapped writer, the counter, and
the panic value when the handler panicked. -/
structure Served (W : Type) where
  w : W
  counter : Counter
  panic : Option String

/-- The middleware built by `PrometheusHandler(hostHeader)`, applied to `next`: runs `next` on a
status recorder starting at 200, then adds 1 to the counter under the destination
header's value and the recorded status.  A panic of `next` passes through the
middleware, which has no deferred call: the `Add` is then not reached.  (The
latency recording is left out.) -/
def PrometheusHandler {W : Type} (hostHeader : String)
    (next : statusRecorder W → Request → statusRecorder W × Option String)
    (counterTotalRequests : Counter) (w : W) (r : Request) : Served W :=
  let ww : statusRecorder W := { ResponseWriter := w, Status := 200 }
  let ran := next ww r
  match ran.2 with
  | some p => { w := ran.1.ResponseWriter, counter := counterTotalRequests, panic := some p }
  | none =>
    { w := ran.1.ResponseWriter,
      counter := counterTotalRequests.Add 1 (r.Header.Get hostHeader) ran.1.Status,
      panic := none }

/-- The route `/decision/*` of `New`: the decision handler behind the metrics middleware. -/
def Server.decisionRoute (parse : String → Except String String) (srv : Server)
    (counterTotalRequests : Counter) (w : Reply) (r : Request) : Served Reply :=
  PrometheusHandler xForwardedHost
    (fun ww q => ((srv.decisionHandler parse ww q).rw, (srv.decisionHandler parse ww q).panic))
    counterTotalRequests w r

/-! ## Two runs against the same decision-service answer -/

/-- The same answer of the decision service as two runs see it: both calls fail, or
both return a response with the same status, the same body and the same header
entries, visited in possibly different orders. -/
def sameAnswer : Except String Response → Except String Response → Prop
  | .error _, .error _ => True
  | .ok a, .ok b =>
    a.StatusCode = b.StatusCode ∧ a.Body = b.Body ∧ a.Header.entries.Perm b.Header.entries
  | _, _ => False

/-- Two requests that are the same on the wire: method, target, body, and the values
stored under every header name. -/
def sameRequest (a b : Request) : Prop :=
  a.Method = b.Method ∧ a.URL = b.URL ∧ a.Body = b.Body ∧
    ∀ k, a.Header.lookup k = b.Header.lookup k

/-- Two replies that are the same on the wire: status, body, and the values stored
under every header name. -/
def sameReply (a b : Reply) : Prop :=
  a.status = b.status ∧ a.body = b.body ∧ ∀ k, a.header.lookup k = b.header.lookup k

/-- The iteration order that visits the keys in insertion order. -/
def RangeOrder.insertion : RangeOrder := ⟨fun keys => keys, fun keys => List.Perm.refl keys⟩

/-- The iteration order that visits the keys in reverse insertion order. -/
def RangeOrder.reversed : RangeOrder := ⟨List.reverse, List.reverse_perm⟩

/-! ## Concrete inputs -/

/-- Upper-case hexadecimal digit, `upperhex` of net/url. -/
def upperhex (n : Nat) : Char := "0123456789ABCDEF".toList.getD n '0'

/-- The function `shouldEscape(c, encodePath)` of net/url on an ASCII character: letters, digits
and the characters of "-_.~$&+,/:;=@" stay, every other character is escaped. -/
def shouldEscapePath (c : Char) : Bool :=
  !(c.isAlphanum || "-_.~$&+,/:;=@".toList.contains c)

/-- The function `escape(s, encodePath)` of net/url on ASCII characters. -/
def escapePath (p : List Char) : List Char :=
  p.flatMap (fun c =>
    if shouldEscapePath c then ['%', upperhex (c.toNat / 16), upperhex (c.toNat % 16)] else [c])

/-- The function `validEncoded(s, encodePath)` of net/url on a path without a percent sign. -/
def validEncodedPath (p : List Char) : Bool :=
  p.all (fun c => "!$&'()*+,;=:@[]".toList.contains c || !shouldEscapePath c)

/-- The method `URL.EscapedPath` for a path parsed from a string without a percent sign: the
path as written when it is a valid encoding, the escaped path otherwise. -/
def EscapedPath (p : List Char) : List Char :=
  if validEncodedPath p then p else escapePath p

/-- The targets on which `netURL` follows net/url: printable ASCII without a percent
sign and without a fragment. -/
def plainTarget (s : List Char) : Bool :=
  s.all (fun c => 32 ≤ c.toNat && c.toNat < 127 && c != '%' && c != '#')

/-- The functions `url.Parse` and `URL.String` of net/url, one after the other, on targets
made of "http://" or "https://", a host of letters, digits, dots and dashes, a
path and a query, written in printable ASCII without a percent sign or a
fragment.  A control character is the parse error of net/url.  The path is
printed by `EscapedPath`, the query as written.  Any other target is outside
this definition and is turned down by it. -/
def netURL (raw : String) : Except String String :=
  let s := raw.toList
  if s.contains '#' then .error "target outside netURL"
  else if s.any (fun c => c.toNat < 32 || c.toNat = 127) then
    .error "net/url: invalid control character in URL"
  else
    let scheme :=
      if "http://".toList.isPrefixOf s then "http://".toList
      else if "https://".toList.isPrefixOf s then "https://".toList
      else []
    let rest := s.drop scheme.length
    let beforeQuery := rest.takeWhile (fun c => c != '?')
    let query := rest.dropWhile (fun c => c != '?')
    let host := beforeQuery.takeWhile (fun c => c != '/')
    let path := beforeQuery.dropWhile (fun c => c != '/')
    if scheme.isEmpty || host.isEmpty || !plainTarget s ||
        !host.all (fun c => c.isAlphanum || c == '.' || c == '-') then
      .error "target outside netURL"
    else .ok (String.mk (scheme ++ host ++ EscapedPath path ++ query))

/-- A probe whose forwarded URI holds a space. -/
def spaceProbe : Request :=
  { Method := "GET", URL := "/decision/",
    Header := ⟨[("X-Forwarded-Host", ["app.example"]), ("X-Forwarded-Uri", ["/a b"])]⟩,
    Body := none }

/-- A probe whose forwarded URI holds a tab, which net/url refuses. -/
def tabProbe : Request :=
  { Method := "GET", URL := "/decision/",
    Header := ⟨[("X-Forwarded-Host", ["app.example"]), ("X-Forwarded-Uri", ["/a	b"])]⟩,
    Body := none }

/-- A forward-auth probe as the reverse proxy sends it. -/
def probe : Request :=
  { Method := "GET", URL := "/decision/",
    Header := ⟨[("X-Forwarded-Host", ["app.example"]), ("X-Forwarded-Uri", ["/p"]),
      ("X-Forwarded-Method", ["GET"]), ("Cookie", ["sid=1"]), ("Accept", ["text/html"])]⟩,
    Body := none }

/-- The request `decisionRequest` builds for `probe`. -/
def probeOut : Request :=
  { Method := "GET", URL := "http://decision/app.example/p", Header := Header.empty,
    Body := none }

/-- A server whose client is `c`, with "cookie" configured besides the four defaults. -/
def serverWith (c : Client) : Server :=
  { decisionUrl := "http://decision",
    copyHeaders := ["X-Forwarded-Proto", "X-Forwarded-Host", "X-Forwarded-Uri",
      "X-Forwarded-Method", "cookie"],
    c := c, redirectURL := "https://login.example/" }

/-- A decision service that always answers `res`. -/
def answering (res : Response) : Client := fun _ => .ok res

/-- A decision service that cannot be reached. -/
def unreachable : Client := fun _ => .error "connection refused"

/-! ## Lemmas on header maps -/

theorem Header.lookupIn_filter_ne (m : List (String × List String)) (ck k : String)
    (hne : ck ≠ k) :
    Header.lookupIn (m.filter (fun e => e.1 != ck)) k = Header.lookupIn m k := by
  induction m with
  | nil => rfl
  | cons e m ih =>
    obtain ⟨k1, v1⟩ := e
    have hb : ∀ a b : String, (a != b) = true ↔ a ≠ b := by
      intro a b; simp
    simp only [List.filter_cons, hb]
    by_cases h1 : k1 = ck
    · subst h1
      simp [Header.lookupIn, hne, ih]
    · by_cases h2 : k1 = k
      · subst h2
        simp [Header.lookupIn, h1]
      · simp [Header.lookupIn, h1, h2, ih]

/-- Indexing after `Set`: the canonical key holds the single value, every other key
is as before. -/
theorem Header.lookup_Set (h : Header) (key value k : String) :
    (h.Set key value).lookup k =
      if CanonicalMIMEHeaderKey key = k then some [value] else h.lookup k := by
  unfold Header.Set Header.lookup
  by_cases hk : CanonicalMIMEHeaderKey key = k
  · simp [Header.lookupIn, hk]
  · simp [Header.lookupIn, hk, Header.lookupIn_filter_ne _ _ _ hk]

theorem Header.Get_eq (h : Header) (key : String) :
    h.Get key = Header.first (h.lookup (CanonicalMIMEHeaderKey key)) := rfl

theorem Header.lookup_empty (k : String) : Header.empty.lookup k = none := rfl

theorem length_eq_zero_iff (s : String) : s.length = 0 ↔ s = "" := by
  constructor
  · intro h
    apply String.ext
    have : s.data.length = 0 := h
    exact List.length_eq_zero.mp this
  · intro h
    subst h
    rfl

theorem length_pos_iff (s : String) : s.length > 0 ↔ s ≠ "" := by
  rw [gt_iff_lt, Nat.pos_iff_ne_zero, Ne, length_eq_zero_iff]

/-! ## Lemmas on `copyRequestHeaders` -/

theorem copyRequestHeaders_eq (srv : Server) (inreq outreq : Request) :
    srv.copyRequestHeaders inreq outreq =
      srv.copyHeaders.foldl (copyRequestHeader inreq) outreq := rfl

theorem copyRequestHeader_lookup (inreq out : Request) (h k : String) :
    (copyRequestHeader inreq out h).Header.lookup k =
      if CanonicalMIMEHeaderKey h = k ∧ inreq.Header.Get h ≠ "" then
        some [Header.first (inreq.Header.lookup k)]
      else out.Header.lookup k := by
  unfold copyRequestHeader
  by_cases hv : inreq.Header.Get h = ""
  · have : ¬ (inreq.Header.Get h).length > 0 := by
      rw [length_pos_iff]; simpa using hv
    simp [this, hv]
  · have hp : (inreq.Header.Get h).length > 0 := (length_pos_iff _).mpr hv
    simp only [hp, if_true, Header.lookup_Set, hv, ne_eq, not_false_eq_true, and_true]
    by_cases hk : CanonicalMIMEHeaderKey h = k
    · subst hk
      simp [Header.Get_eq]
    · simp [hk]

theorem copyRequestHeader_fields (inreq out : Request) (h : String) :
    (copyRequestHeader inreq out h).Method = out.Method ∧
      (copyRequestHeader inreq out h).URL = out.URL ∧
      (copyRequestHeader inreq out h).Body = out.Body := by
  unfold copyRequestHeader
  by_cases hp : (inreq.Header.Get h).length > 0 <;> simp [hp]

theorem foldl_copyRequestHeader_fields (inreq : Request) (l : List String) (out : Request) :
    (l.foldl (copyRequestHeader inreq) out).Method = out.Method ∧
      (l.foldl (copyRequestHeader inreq) out).URL = out.URL ∧
      (l.foldl (copyRequestHeader inreq) out).Body = out.Body := by
  induction l generalizing out with
  | nil => exact ⟨rfl, rfl, rfl⟩
  | cons a l ih =>
    obtain ⟨h1, h2, h3⟩ := ih (copyRequestHeader inreq out a)
    obtain ⟨g1, g2, g3⟩ := copyRequestHeader_fields inreq out a
    simp only [List.foldl_cons]
    exact ⟨h1.trans g1, h2.trans g2, h3.trans g3⟩

/-- A key under which no allowlisted name has a non-empty inbound value is left as it was. -/
theorem foldl_copyRequestHeader_untouched (inreq : Request) (l : List String) (out : Request)
    (k : String)
    (hno : ∀ h ∈ l, CanonicalMIMEHeaderKey h = k → inreq.Header.Get h = "") :
    (l.foldl (copyRequestHeader inreq) out).Header.lookup k = out.Header.lookup k := by
  induction l generalizing out with
  | nil => rfl
  | cons a l ih =>
    simp only [List.foldl_cons]
    rw [ih _ (fun h hh => hno h (List.mem_cons_of_mem _ hh)), copyRequestHeader_lookup]
    have := hno a (List.mem_cons_self _ _)
    by_cases hk : CanonicalMIMEHeaderKey a = k
    · simp [this hk]
    · simp [hk]

/-- A key under which some allowlisted name has a non-empty inbound value holds that
value alone, whatever the order of the allowlist. -/
theorem foldl_copyRequestHeader_touched (inreq : Request) (l : List String) (out : Request)
    (k : String)
    (hex : ∃ h ∈ l, CanonicalMIMEHeaderKey h = k ∧ inreq.Header.Get h ≠ "") :
    (l.foldl (copyRequestHeader inreq) out).Header.lookup k =
      some [Header.first (inreq.Header.lookup k)] := by
  induction l generalizing out with
  | nil => obtain ⟨h, hh, _⟩ := hex; cases hh
  | cons a l ih =>
    simp only [List.foldl_cons]
    by_cases hin : ∃ h ∈ l, CanonicalMIMEHeaderKey h = k ∧ inreq.Header.Get h ≠ ""
    · exact ih _ hin
    · obtain ⟨h, hh, hk, hv⟩ := hex
      have ha : h = a := by
        rcases List.mem_cons.mp hh with e | e
        · exact e
        · exact absurd ⟨h, e, hk, hv⟩ hin
      subst ha
      have hno : ∀ g ∈ l, CanonicalMIMEHeaderKey g = k → inreq.Header.Get g = "" := by
        intro g hg hc
        by_contra hne
        exact hin ⟨g, hg, hc, hne⟩
      rw [foldl_copyRequestHeader_untouched inreq l _ k hno, copyRequestHeader_lookup]
      simp [hk, hv]

/-! ## Lemmas on `copyResponseHeaders` -/

theorem copyResponseHeader_lookup (out : Header) (e : String × List String) (k : String) :
    (copyResponseHeader out e).lookup k =
      if CanonicalMIMEHeaderKey e.1 = k ∧ Header.first (out.lookup k) = "" ∧ e.2 ≠ [] then
        some [String.intercalate "," e.2]
      else out.lookup k := by
  unfold copyResponseHeader
  have hlen : e.2.length > 0 ↔ e.2 ≠ [] := List.length_pos
  simp only [length_eq_zero_iff, hlen, Header.Get_eq]
  by_cases hk : CanonicalMIMEHeaderKey e.1 = k
  · subst hk
    by_cases hc : Header.first (out.lookup (CanonicalMIMEHeaderKey e.1)) = "" ∧ e.2 ≠ []
    · simp [hc, Header.lookup_Set]
    · simp only [hc, if_false, true_and]
  · by_cases hc : Header.first (out.lookup (CanonicalMIMEHeaderKey e.1)) = "" ∧ e.2 ≠ []
    · simp [hc, hk, Header.lookup_Set]
    · simp [hc, hk]

/-- A key that no entry of the response names (up to case) is left as it was. -/
theorem foldl_copyResponseHeader_untouched (l : List (String × List String)) (out : Header)
    (k : String) (hno : ∀ e ∈ l, CanonicalMIMEHeaderKey e.1 ≠ k) :
    (l.foldl copyResponseHeader out).lookup k = out.lookup k := by
  induction l generalizing out with
  | nil => rfl
  | cons a l ih =>
    simp only [List.foldl_cons]
    rw [ih _ (fun e he => hno e (List.mem_cons_of_mem _ he)), copyResponseHeader_lookup]
    simp [hno a (List.mem_cons_self _ _)]

/-- A key whose first value is non-empty is left as it was, whatever the response holds. -/
theorem foldl_copyResponseHeader_kept (l : List (String × List String)) (out : Header)
    (k : String) (hset : Header.first (out.lookup k) ≠ "") :
    (l.foldl copyResponseHeader out).lookup k = out.lookup k := by
  induction l generalizing out with
  | nil => rfl
  | cons a l ih =>
    have hstep : (copyResponseHeader out a).lookup k = out.lookup k := by
      rw [copyResponseHeader_lookup]
      simp [hset]
    simp only [List.foldl_cons]
    rw [ih _ (by rw [hstep]; exact hset), hstep]

/-- The key of an entry of the response, when no other entry has the same name up to
case: it takes the joined values if its first value was empty and the entry has
values, and is left as it was otherwise. -/
theorem foldl_copyResponseHeader_touched (l : List (String × List String)) (out : Header)
    (hnd : (l.map (fun e => CanonicalMIMEHeaderKey e.1)).Nodup)
    (e : String × List String) (he : e ∈ l) :
    (l.foldl copyResponseHeader out).lookup (CanonicalMIMEHeaderKey e.1) =
      if Header.first (out.lookup (CanonicalMIMEHeaderKey e.1)) = "" ∧ e.2 ≠ [] then
        some [String.intercalate "," e.2]
      else out.lookup (CanonicalMIMEHeaderKey e.1) := by
  induction l generalizing out with
  | nil => cases he
  | cons a l ih =>
    simp only [List.map_cons, List.nodup_cons, List.mem_map, not_exists, not_and] at hnd
    obtain ⟨hfirst, hrest⟩ := hnd
    simp only [List.foldl_cons]
    rcases List.mem_cons.mp he with hea | hel
    · subst hea
      rw [foldl_copyResponseHeader_untouched l _ _ (fun x hx hc => hfirst x hx hc),
        copyResponseHeader_lookup]
      simp
    · have hne : CanonicalMIMEHeaderKey a.1 ≠ CanonicalMIMEHeaderKey e.1 :=
        fun hc => hfirst e hel hc.symm
      have hstep : (copyResponseHeader out a).lookup (CanonicalMIMEHeaderKey e.1) =
          out.lookup (CanonicalMIMEHeaderKey e.1) := by
        rw [copyResponseHeader_lookup]
        simp [hne]
      rw [ih _ hrest hel, hstep]

/-- The merge does not depend on the order in which the response's map is visited. -/
theorem foldl_copyResponseHeader_perm (l1 l2 : List (String × List String)) (out : Header)
    (hp : l1.Perm l2) (hnd : (l1.map (fun e => CanonicalMIMEHeaderKey e.1)).Nodup)
    (k : String) :
    (l1.foldl copyResponseHeader out).lookup k = (l2.foldl copyResponseHeader out).lookup k := by
  have hnd2 : (l2.map (fun e => CanonicalMIMEHeaderKey e.1)).Nodup :=
    (hp.map _).nodup_iff.mp hnd
  by_cases hex : ∃ e ∈ l1, CanonicalMIMEHeaderKey e.1 = k
  · obtain ⟨e, he, hk⟩ := hex
    subst hk
    rw [foldl_copyResponseHeader_touched l1 out hnd e he,
      foldl_copyResponseHeader_touched l2 out hnd2 e (hp.mem_iff.mp he)]
  · have hno1 : ∀ e ∈ l1, CanonicalMIMEHeaderKey e.1 ≠ k := fun e he hc => hex ⟨e, he, hc⟩
    have hno2 : ∀ e ∈ l2, CanonicalMIMEHeaderKey e.1 ≠ k :=
      fun e he hc => hex ⟨e, hp.mem_iff.mpr he, hc⟩
    rw [foldl_copyResponseHeader_untouched l1 out k hno1,
      foldl_copyResponseHeader_untouched l2 out k hno2]

/-- The request headers do not depend on the order of the allowlist. -/
theorem foldl_copyRequestHeader_perm (inreq : Request) (l1 l2 : List String) (out : Request)
    (hp : l1.Perm l2) (k : String) :
    (l1.foldl (copyRequestHeader inreq) out).Header.lookup k =
      (l2.foldl (copyRequestHeader inreq) out).Header.lookup k := by
  by_cases hex : ∃ h ∈ l1, CanonicalMIMEHeaderKey h = k ∧ inreq.Header.Get h ≠ ""
  · have hex2 : ∃ h ∈ l2, CanonicalMIMEHeaderKey h = k ∧ inreq.Header.Get h ≠ "" := by
      obtain ⟨h, hh, hc⟩ := hex
      exact ⟨h, hp.mem_iff.mp hh, hc⟩
    rw [foldl_copyRequestHeader_touched inreq l1 out k hex,
      foldl_copyRequestHeader_touched inreq l2 out k hex2]
  · have hno1 : ∀ h ∈ l1, CanonicalMIMEHeaderKey h = k → inreq.Header.Get h = "" := by
      intro h hh hc
      by_contra hne
      exact hex ⟨h, hh, hc, hne⟩
    have hno2 : ∀ h ∈ l2, CanonicalMIMEHeaderKey h = k → inreq.Header.Get h = "" :=
      fun h hh hc => hno1 h (hp.mem_iff.mpr hh) hc
    rw [foldl_copyRequestHeader_untouched inreq l1 out k hno1,
      foldl_copyRequestHeader_untouched inreq l2 out k hno2]

/-! ## Lemmas on the handler -/

theorem decisionHandler_buildError {W : Type} [ResponseWriter W]
    (parse : String → Except String String) (srv : Server) (rw : W) (r : Request)
    (err : String) (hreq : decisionRequest parse r srv.decisionUrl = .error err) :
    srv.decisionHandler parse rw r =
      { rw := (ResponseWriter.WriteHeader rw 500).1, sent := [], read := none,
        panic := (ResponseWriter.WriteHeader rw 500).2 } := by
  unfold Server.decisionHandler
  rw [hreq]

theorem decisionHandler_doError {W : Type} [ResponseWriter W]
    (parse : String → Except String String) (srv : Server) (rw : W) (r outreq0 : Request)
    (err : String)
    (hreq : decisionRequest parse r srv.decisionUrl = .ok outreq0)
    (hdo : srv.c (srv.copyRequestHeaders r outreq0) = .error err) :
    srv.decisionHandler parse rw r =
      { rw := (ResponseWriter.WriteHeader rw 500).1,
        sent := [srv.copyRequestHeaders r outreq0], read := none,
        panic := (ResponseWriter.WriteHeader rw 500).2 } := by
  unfold Server.decisionHandler
  rw [hreq]
  simp only [hdo]

theorem decisionHandler_response {W : Type} [ResponseWriter W]
    (parse : String → Except String String) (srv : Server) (rw : W) (r outreq0 : Request)
    (res : Response)
    (hreq : decisionRequest parse r srv.decisionUrl = .ok outreq0)
    (hdo : srv.c (srv.copyRequestHeaders r outreq0) = .ok res) :
    srv.decisionHandler parse rw r =
      if res.StatusCode ≠ 200 then
        { rw := (srv.handleResponseErrorStatus res rw).1,
          sent := [srv.copyRequestHeaders r outreq0], read := some res.Body,
          panic := (srv.handleResponseErrorStatus res rw).2 }
      else
        { rw := (ResponseWriter.WriteHeader (copyResponseHeaders res rw) 200).1,
          sent := [srv.copyRequestHeaders r outreq0], read := none,
          panic := (ResponseWriter.WriteHeader (copyResponseHeaders res rw) 200).2 } := by
  unfold Server.decisionHandler
  rw [hreq]
  simp only [hdo]

/-- On a writer that sent no status line yet, a code from 100 to 999 is sent. -/
theorem Reply.WriteHeader_fresh (w : Reply) (code : Nat) (hs : w.status = none)
    (hlo : 100 ≤ code) (hhi : code ≤ 999) :
    w.WriteHeader code = ({ w with status := some code }, none) := by
  unfold Reply.WriteHeader
  have hok : ¬ (code < 100 ∨ code > 999) := by omega
  rw [hs]
  simp only [hok, if_false]

/-- On a writer that sent no status line yet, a code outside 100..999 panics and
nothing is sent. -/
theorem Reply.WriteHeader_panic (w : Reply) (code : Nat) (hs : w.status = none)
    (hbad : code < 100 ∨ code > 999) :
    w.WriteHeader code = (w, some "invalid WriteHeader code") := by
  unfold Reply.WriteHeader
  rw [hs]
  simp only [hbad, if_true]

theorem Reply.WriteHeader_header (w : Reply) (code : Nat) :
    (w.WriteHeader code).1.header = w.header := by
  unfold Reply.WriteHeader
  cases w.status with
  | some s => rfl
  | none =>
    by_cases hbad : code < 100 ∨ code > 999
    · simp only [hbad, if_true]
    · simp only [hbad, if_false]

theorem handleResponseErrorStatus_readError (srv : Server) (res : Response) (h0 : Header)
    (err : String) (hb : res.Body.err = some err) :
    srv.handleResponseErrorStatus res (Reply.fresh h0) =
      ({ header := h0, status := some 500, body := [] }, none) := by
  unfold Server.handleResponseErrorStatus
  rw [hb]
  rfl

theorem handleResponseErrorStatus_unauthorized (srv : Server) (res : Response) (h0 : Header)
    (hb : res.Body.err = none) (hc : res.StatusCode = 401) :
    srv.handleResponseErrorStatus res (Reply.fresh h0) =
      ({ header := h0.Set "Location" srv.redirectURL, status := some 307, body := [] },
        none) := by
  unfold Server.handleResponseErrorStatus
  rw [hb]
  simp only [hc, if_true]
  rfl

/-- The passthrough branch on a code the writer accepts: the status is sent, then the
body unless the status allows none. -/
theorem handleResponseErrorStatus_relay (srv : Server) (res : Response) (h0 : Header)
    (hb : res.Body.err = none) (hc : res.StatusCode ≠ 401)
    (hlo : 100 ≤ res.StatusCode) (hhi : res.StatusCode ≤ 999) :
    srv.handleResponseErrorStatus res (Reply.fresh h0) =
      ({ header := h0, status := some res.StatusCode,
         body := if bodyAllowedForStatus res.StatusCode then res.Body.d else [] }, none) := by
  unfold Server.handleResponseErrorStatus
  rw [hb]
  simp only [hc, if_false]
  have hw : (ResponseWriter.WriteHeader (Reply.fresh h0) res.StatusCode) =
      (({ header := h0, status := some res.StatusCode, body := [] } : Reply), none) :=
    Reply.WriteHeader_fresh (Reply.fresh h0) res.StatusCode rfl hlo hhi
  rw [hw]
  show ((Reply.Write { header := h0, status := some res.StatusCode, body := [] } res.Body.d,
    none) : Reply × Option String) = _
  unfold Reply.Write
  by_cases hba : bodyAllowedForStatus res.StatusCode = true
  · simp [hba]
  · simp [hba]

/-- The passthrough branch on a code the writer refuses: the panic, and nothing sent. -/
theorem handleResponseErrorStatus_panic (srv : Server) (res : Response) (h0 : Header)
    (hb : res.Body.err = none) (hc : res.StatusCode ≠ 401)
    (hbad : res.StatusCode < 100 ∨ res.StatusCode > 999) :
    srv.handleResponseErrorStatus res (Reply.fresh h0) =
      (Reply.fresh h0, some "invalid WriteHeader code") := by
  unfold Server.handleResponseErrorStatus
  rw [hb]
  simp only [hc, if_false]
  have hw : (ResponseWriter.WriteHeader (Reply.fresh h0) res.StatusCode) =
      (Reply.fresh h0, some "invalid WriteHeader code") :=
    Reply.WriteHeader_panic (Reply.fresh h0) res.StatusCode rfl hbad
  rw [hw]

theorem copyResponseHeaders_reply (res : Response) (w : Reply) :
    copyResponseHeaders res w =
      { w with header := res.Header.entries.foldl copyResponseHeader w.header } := rfl

theorem statusRecorder.WriteHeader_eq (ww : statusRecorder Reply) (code : Nat) :
    ResponseWriter.WriteHeader ww code =
      ({ ResponseWriter := (Reply.WriteHeader ww.ResponseWriter code).1, Status := code },
        (Reply.WriteHeader ww.ResponseWriter code).2) := rfl

/-- Behind the status recorder the handler writes the same reply and panics on the
same runs; when it does not panic, the status the recorder holds afterwards is
the status sent to the caller. -/
theorem decisionHandler_recorded (parse : String → Except String String) (srv : Server)
    (h0 : Header) (r : Request) :
    (srv.decisionHandler parse
        ({ ResponseWriter := Reply.fresh h0, Status := 200 } : statusRecorder Reply)
        r).rw.ResponseWriter =
      (srv.decisionHandler parse (Reply.fresh h0) r).rw ∧
    (srv.decisionHandler parse
        ({ ResponseWriter := Reply.fresh h0, Status := 200 } : statusRecorder Reply)
        r).panic =
      (srv.decisionHandler parse (Reply.fresh h0) r).panic ∧
    ((srv.decisionHandler parse (Reply.fresh h0) r).panic = none →
      (srv.decisionHandler parse (Reply.fresh h0) r).rw.status =
        some (srv.decisionHandler parse
          ({ ResponseWriter := Reply.fresh h0, Status := 200 } : statusRecorder Reply)
          r).rw.Status) := by
  cases hreq : decisionRequest parse r srv.decisionUrl with
  | error e1 =>
    rw [decisionHandler_buildError parse srv _ r e1 hreq,
      decisionHandler_buildError parse srv _ r e1 hreq]
    exact ⟨rfl, rfl, fun _ => rfl⟩
  | ok outreq0 =>
    cases hdo : srv.c (srv.copyRequestHeaders r outreq0) with
    | error e2 =>
      rw [decisionHandler_doError parse srv _ r outreq0 e2 hreq hdo,
        decisionHandler_doError parse srv _ r outreq0 e2 hreq hdo]
      exact ⟨rfl, rfl, fun _ => rfl⟩
    | ok res =>
      rw [decisionHandler_response parse srv _ r outreq0 res hreq hdo,
        decisionHandler_response parse srv _ r outreq0 res hreq hdo]
      by_cases h200 : res.StatusCode = 200
      · simp only [h200, ne_eq, not_true_eq_false, if_false]
        exact ⟨rfl, rfl, fun _ => rfl⟩
      · simp only [h200, ne_eq, not_false_eq_true, if_true]
        unfold Server.handleResponseErrorStatus
        cases hb : res.Body.err with
        | some e3 => exact ⟨rfl, rfl, fun _ => rfl⟩
        | none =>
          by_cases h401 : res.StatusCode = 401
          · simp only [h401, if_true]
            exact ⟨rfl, rfl, fun _ => rfl⟩
          · simp only [h401, if_false]
            rw [statusRecorder.WriteHeader_eq]
            have hplain : ResponseWriter.WriteHeader (Reply.fresh h0) res.StatusCode =
                Reply.WriteHeader (Reply.fresh h0) res.StatusCode := rfl
            rw [hplain]
            by_cases hbad : res.StatusCode < 100 ∨ res.StatusCode > 999
            · rw [Reply.WriteHeader_panic (Reply.fresh h0) res.StatusCode rfl hbad]
              refine ⟨rfl, rfl, ?_⟩
              intro h
              cases h
            · have hlo : 100 ≤ res.StatusCode := by omega
              have hhi : res.StatusCode ≤ 999 := by omega
              rw [Reply.WriteHeader_fresh (Reply.fresh h0) res.StatusCode rfl hlo hhi]
              refine ⟨rfl, rfl, ?_⟩
              intro _
              show (Reply.Write { header := h0, status := some res.StatusCode, body := [] }
                res.Body.d).status = some res.StatusCode
              unfold Reply.Write
              by_cases hba : bodyAllowedForStatus res.StatusCode = true
              · simp [hba]
              · simp [hba]

theorem Counter.Add_same (cnt : Counter) (n : Nat) (d : String) (k : Nat) :
    cnt.Add n d k d k = cnt d k + n := by
  simp [Counter.Add]

theorem Counter.Add_other (cnt : Counter) (n : Nat) (d : String) (k : Nat) (d1 : String)
    (k1 : Nat) (hne : ¬ (d1 = d ∧ k1 = k)) :
    cnt.Add n d k d1 k1 = cnt d1 k1 := by
  simp [Counter.Add, hne]

/-- The function `decisionRequest` is `http.NewRequest` on the inbound method and the concatenated
target. -/
theorem decisionRequest_eq (parse : String → Except String String) (inreq : Request)
    (base : String) :
    decisionRequest parse inreq base =
      NewRequest parse inreq.Method
        (base ++ "/" ++ inreq.Header.Get xForwardedHost ++ inreq.Header.Get xForwardedUri) := by
  unfold decisionRequest
  simp only
  split
  · rename_i err h
    rw [h]
  · rename_i outreq h
    rw [h]

/-- What a successful `http.NewRequest` returns. -/
theorem NewRequest_ok (parse : String → Except String String) (method url : String)
    (outreq : Request) (hok : NewRequest parse method url = .ok outreq) :
    parse url = .ok outreq.URL ∧
      outreq.Method = (if method = "" then "GET" else method) ∧
      outreq.Body = none ∧ outreq.Header = Header.empty := by
  unfold NewRequest at hok
  by_cases hm : validMethod (if method = "" then "GET" else method) = true
  · simp only [hm, if_true] at hok
    cases hp : parse url with
    | error err =>
      rw [hp] at hok
      cases hok
    | ok u =>
      rw [hp] at hok
      cases hok
      exact ⟨rfl, rfl, rfl, rfl⟩
  · simp only [hm] at hok
    cases hok

/-- The request a successful `decisionRequest` returns has an empty header map. -/
theorem decisionRequest_fresh (parse : String → Except String String) (inreq : Request)
    (base : String) (outreq : Request)
    (hok : decisionRequest parse inreq base = .ok outreq) :
    outreq.Header = Header.empty := by
  rw [decisionRequest_eq] at hok
  exact (NewRequest_ok parse _ _ outreq hok).2.2.2

/-- On a fresh reply the handler does not panic when `decisionRequest` fails. -/
theorem decisionHandler_buildError_reply (parse : String → Except String String)
    (srv : Server) (h0 : Header) (r : Request) (err : String)
    (hreq : decisionRequest parse r srv.decisionUrl = .error err) :
    srv.decisionHandler parse (Reply.fresh h0) r =
      { rw := { header := h0, status := some 500, body := [] }, sent := [], read := none,
        panic := none } := by
  rw [decisionHandler_buildError parse srv _ r err hreq]
  rfl

/-- On a fresh reply the handler does not panic when the client's call fails. -/
theorem decisionHandler_doError_reply (parse : String → Except String String)
    (srv : Server) (h0 : Header) (r outreq0 : Request) (err : String)
    (hreq : decisionRequest parse r srv.decisionUrl = .ok outreq0)
    (hdo : srv.c (srv.copyRequestHeaders r outreq0) = .error err) :
    srv.decisionHandler parse (Reply.fresh h0) r =
      { rw := { header := h0, status := some 500, body := [] },
        sent := [srv.copyRequestHeaders r outreq0], read := none, panic := none } := by
  rw [decisionHandler_doError parse srv _ r outreq0 err hreq hdo]
  rfl

/-- On a fresh reply the handler panics only when it relays a status outside 100..999. -/
theorem decisionHandler_noPanic (parse : String → Except String String)
    (srv : Server) (h0 : Header) (r outreq0 : Request) (res : Response)
    (hreq : decisionRequest parse r srv.decisionUrl = .ok outreq0)
    (hdo : srv.c (srv.copyRequestHeaders r outreq0) = .ok res)
    (hcase : res.StatusCode = 200 ∨ res.StatusCode = 401 ∨ res.Body.err ≠ none ∨
      (100 ≤ res.StatusCode ∧ res.StatusCode ≤ 999)) :
    (srv.decisionHandler parse (Reply.fresh h0) r).panic = none := by
  rw [decisionHandler_response parse srv _ r outreq0 res hreq hdo]
  by_cases h200 : res.StatusCode = 200
  · simp only [h200, ne_eq, not_true_eq_false, if_false]
    rfl
  · simp only [h200, ne_eq, not_false_eq_true, if_true]
    cases hb : res.Body.err with
    | some e3 => rw [handleResponseErrorStatus_readError srv res h0 e3 hb]
    | none =>
      by_cases h401 : res.StatusCode = 401
      · rw [handleResponseErrorStatus_unauthorized srv res h0 hb h401]
      · have hrange : 100 ≤ res.StatusCode ∧ res.StatusCode ≤ 999 := by
          rcases hcase with h | h | h | h
          · exact absurd h h200
          · exact absurd h h401
          · exact absurd hb h
          · exact h
        rw [handleResponseErrorStatus_relay srv res h0 hb h401 hrange.1 hrange.2]

/-- The route, by the panic of the handler behind the recorder. -/
theorem decisionRoute_eq (parse : String → Except String String) (srv : Server)
    (cnt : Counter) (h0 : Header) (r : Request) :
    srv.decisionRoute parse cnt (Reply.fresh h0) r =
      match (srv.decisionHandler parse
          ({ ResponseWriter := Reply.fresh h0, Status := 200 } : statusRecorder Reply)
          r).panic with
      | some p =>
        { w := (srv.decisionHandler parse
            ({ ResponseWriter := Reply.fresh h0, Status := 200 } : statusRecorder Reply)
            r).rw.ResponseWriter,
          counter := cnt, panic := some p }
      | none =>
        { w := (srv.decisionHandler parse
            ({ ResponseWriter := Reply.fresh h0, Status := 200 } : statusRecorder Reply)
            r).rw.ResponseWriter,
          counter := cnt.Add 1 (r.Header.Get xForwardedHost)
            (srv.decisionHandler parse
              ({ ResponseWriter := Reply.fresh h0, Status := 200 } : statusRecorder Reply)
              r).rw.Status,
          panic := none } := rfl

/-- When the handler does not panic, the route leaves the handler's reply and adds 1 to
the counter under the destination and the recorded status. -/
theorem decisionRoute_served (parse : String → Except String String) (srv : Server)
    (cnt : Counter) (h0 : Header) (r : Request)
    (hnp : (srv.decisionHandler parse (Reply.fresh h0) r).panic = none) :
    srv.decisionRoute parse cnt (Reply.fresh h0) r =
      { w := (srv.decisionHandler parse (Reply.fresh h0) r).rw,
        counter := cnt.Add 1 (r.Header.Get xForwardedHost)
          (srv.decisionHandler parse
            ({ ResponseWriter := Reply.fresh h0, Status := 200 } : statusRecorder Reply)
            r).rw.Status,
        panic := none } := by
  obtain ⟨hw, hp, _⟩ := decisionHandler_recorded parse srv h0 r
  rw [decisionRoute_eq, hp, hnp, hw]

/-- When the handler panics, the route leaves the counter as it was. -/
theorem decisionRoute_panicked (parse : String → Except String String) (srv : Server)
    (cnt : Counter) (h0 : Header) (r : Request) (p : String)
    (hp : (srv.decisionHandler parse (Reply.fresh h0) r).panic = some p) :
    srv.decisionRoute parse cnt (Reply.fresh h0) r =
      { w := (srv.decisionHandler parse (Reply.fresh h0) r).rw, counter := cnt,
        panic := some p } := by
  obtain ⟨hw, hrec, _⟩ := decisionHandler_recorded parse srv h0 r
  rw [decisionRoute_eq, hrec, hp, hw]

/-! ## Lemmas on the allowlist -/

theorem mem_setKey (s : List String) (h x : String) :
    x ∈ setKey s h ↔ x ∈ s ∨ x = h := by
  unfold setKey
  by_cases hm : h ∈ s
  · simp only [hm, if_true]
    constructor
    · intro hx; exact Or.inl hx
    · rintro (hx | hx)
      · exact hx
      · subst hx; exact hm
  · simp [hm]

theorem nodup_setKey (s : List String) (h : String) (hs : s.Nodup) : (setKey s h).Nodup := by
  unfold setKey
  by_cases hm : h ∈ s
  · simpa [hm] using hs
  · simp only [hm, if_false]
    exact List.Nodup.append hs (List.nodup_singleton h) (by simpa using hm)

theorem mem_foldl_setKey (l s : List String) (x : String) :
    x ∈ l.foldl setKey s ↔ x ∈ s ∨ x ∈ l := by
  induction l generalizing s with
  | nil => simp
  | cons a l ih =>
    simp only [List.foldl_cons, ih, mem_setKey, List.mem_cons]
    tauto

theorem nodup_foldl_setKey (l s : List String) (hs : s.Nodup) : (l.foldl setKey s).Nodup := by
  induction l generalizing s with
  | nil => simpa using hs
  | cons a l ih => exact ih _ (nodup_setKey s a hs)

/-- The allowlist `New` stores, for any iteration order. -/
theorem New_ok (order : RangeOrder) (c : Client) (cfg : Config) :
    New order (.ok ()) c cfg = .ok
      { decisionUrl := cfg.ForwardAddress,
        copyHeaders := order.visit (defaultHeaders.foldl setKey (cfg.Headers.foldl setKey [])),
        c := c, redirectURL := cfg.RedirectURL } := rfl

theorem New_copyHeaders (order : RangeOrder) (c : Client) (cfg : Config) (srv : Server)
    (h : New order (.ok ()) c cfg = .ok srv) :
    srv.copyHeaders.Perm (defaultHeaders.foldl setKey (cfg.Headers.foldl setKey [])) ∧
      srv.c = c ∧ srv.decisionUrl = cfg.ForwardAddress ∧ srv.redirectURL = cfg.RedirectURL := by
  rw [New_ok] at h
  injection h with h
  subst h
  exact ⟨order.visit_perm _, rfl, rfl, rfl⟩

/-! ## The claims -/

/-- C7: for every configured header list (empty, or with repeated entries) and every
iteration order of the set, `New` succeeds once the metrics set-up did, and the
allowlist it stores contains exactly the configured names and the four
forwarded-metadata names, each once. -/
theorem C7_allowlist_exact (order : RangeOrder) (c : Client) (cfg : Config) :
    ∃ srv, New order (.ok ()) c cfg = .ok srv ∧
      (∀ h, h ∈ srv.copyHeaders ↔
        h ∈ cfg.Headers ∨ h = "X-Forwarded-Proto" ∨ h = "X-Forwarded-Host" ∨
          h = "X-Forwarded-Uri" ∨ h = "X-Forwarded-Method") ∧
      srv.copyHeaders.Nodup := by
  refine ⟨_, New_ok order c cfg, ?_, ?_⟩
  · intro h
    simp only [(order.visit_perm _).mem_iff, mem_foldl_setKey, defaultHeaders, xForwardedProto,
      xForwardedHost, xForwardedUri, xForwardedMethod, List.mem_cons, List.mem_nil_iff,
      List.not_mem_nil, false_or, or_false]
  · exact (order.visit_perm _).nodup_iff.mpr
      (nodup_foldl_setKey _ _ (nodup_foldl_setKey _ _ List.nodup_nil))

/-- C6, the claim as stated fails: for a forwarded URI "/a b" the URL of the decision
request is not the concatenation, net/url having escaped the space. -/
theorem C6_space_in_uri_is_escaped :
    decisionRequest netURL spaceProbe "http://decision" =
      .ok { Method := "GET", URL := "http://decision/app.example/a%20b",
            Header := Header.empty, Body := none } ∧
    "http://decision/app.example/a%20b" ≠
      "http://decision" ++ "/" ++ spaceProbe.Header.Get "X-Forwarded-Host" ++
        spaceProbe.Header.Get "X-Forwarded-Uri" :=
  ⟨rfl, by decide⟩

/-- C6, amended: `decisionRequest` is `http.NewRequest` on the inbound method, a nil body and
the target base ++ "/" ++ h ++ u, where h and u are the first values stored under
X-Forwarded-Host and X-Forwarded-Uri in the inbound header map (the empty string
when the entry is absent or empty), concatenated as they are.  When it succeeds,
the decision request has the inbound method (GET for an empty one), no body, no
header, and as URL what net/url's parser makes of that target. -/
theorem C6_decisionRequest_target (parse : String → Except String String)
    (inreq : Request) (base : String) :
    decisionRequest parse inreq base =
      NewRequest parse inreq.Method
        (base ++ "/" ++ Header.first (inreq.Header.lookup "X-Forwarded-Host") ++
          Header.first (inreq.Header.lookup "X-Forwarded-Uri")) ∧
    ∀ outreq, decisionRequest parse inreq base = .ok outreq →
      parse (base ++ "/" ++ Header.first (inreq.Header.lookup "X-Forwarded-Host") ++
          Header.first (inreq.Header.lookup "X-Forwarded-Uri")) = .ok outreq.URL ∧
      outreq.Method = (if inreq.Method = "" then "GET" else inreq.Method) ∧
      outreq.Body = none ∧ outreq.Header = Header.empty := by
  have e1 : CanonicalMIMEHeaderKey xForwardedHost = "X-Forwarded-Host" := by decide
  have e2 : CanonicalMIMEHeaderKey xForwardedUri = "X-Forwarded-Uri" := by decide
  have heq : decisionRequest parse inreq base =
      NewRequest parse inreq.Method
        (base ++ "/" ++ Header.first (inreq.Header.lookup "X-Forwarded-Host") ++
          Header.first (inreq.Header.lookup "X-Forwarded-Uri")) := by
    rw [decisionRequest_eq, Header.Get_eq, Header.Get_eq, e1, e2]
  refine ⟨heq, ?_⟩
  intro outreq hok
  rw [heq] at hok
  exact NewRequest_ok parse _ _ outreq hok

/-- C6 amended, at a probe with forwarded host "app.example" and forwarded URI "/p". -/
theorem C6_decisionRequest_target_witness :
    decisionRequest netURL probe "http://decision" = .ok probeOut ∧
    netURL ("http://decision" ++ "/" ++
        Header.first (probe.Header.lookup "X-Forwarded-Host") ++
        Header.first (probe.Header.lookup "X-Forwarded-Uri")) = .ok probeOut.URL :=
  ⟨rfl, ((C6_decisionRequest_target netURL probe "http://decision").2 probeOut rfl).1⟩

/-- C1, the claim as stated fails: a 401 whose body cannot be read is answered with 500, and
no Location header is set. -/
theorem C1_unreadable_401_gives_500 :
    ((serverWith (answering ⟨401, ⟨[("Www-Authenticate", ["Basic"])]⟩,
          ⟨[60, 104], some "unexpected EOF"⟩⟩)).decisionHandler netURL
        (Reply.fresh Header.empty) probe).rw.status = some 500 ∧
    ((serverWith (answering ⟨401, ⟨[("Www-Authenticate", ["Basic"])]⟩,
          ⟨[60, 104], some "unexpected EOF"⟩⟩)).decisionHandler netURL
        (Reply.fresh Header.empty) probe).rw.header.lookup "Location" = none := by
  decide

/-- C1, amended: for every decision response with status 401, whatever its headers, if its
body is read successfully (whatever the bytes) the reply has status 307, an empty
body and Location equal to the configured redirect URL; if the read fails the
reply is 500 with the headers untouched; in both cases the status is not 401. -/
theorem C1_unauthorized_redirect (parse : String → Except String String) (srv : Server)
    (h0 : Header) (r outreq0 : Request) (res : Response)
    (hreq : decisionRequest parse r srv.decisionUrl = .ok outreq0)
    (hdo : srv.c (srv.copyRequestHeaders r outreq0) = .ok res)
    (h401 : res.StatusCode = 401) :
    (res.Body.err = none →
      (srv.decisionHandler parse (Reply.fresh h0) r).rw.status = some 307 ∧
      (srv.decisionHandler parse (Reply.fresh h0) r).rw.header.lookup "Location" =
        some [srv.redirectURL] ∧
      (srv.decisionHandler parse (Reply.fresh h0) r).rw.header.Get "Location" =
        srv.redirectURL ∧
      (srv.decisionHandler parse (Reply.fresh h0) r).rw.body = []) ∧
    (∀ err, res.Body.err = some err →
      (srv.decisionHandler parse (Reply.fresh h0) r).rw.status = some 500 ∧
      (srv.decisionHandler parse (Reply.fresh h0) r).rw.header = h0 ∧
      (srv.decisionHandler parse (Reply.fresh h0) r).rw.body = []) ∧
    (srv.decisionHandler parse (Reply.fresh h0) r).rw.status ≠ some 401 := by
  have hne : res.StatusCode ≠ 200 := by rw [h401]; decide
  have hloc : CanonicalMIMEHeaderKey "Location" = "Location" := by decide
  rw [decisionHandler_response parse srv _ r outreq0 res hreq hdo]
  simp only [hne, ne_eq, not_false_eq_true, if_true]
  refine ⟨?_, ?_, ?_⟩
  · intro hb
    rw [handleResponseErrorStatus_unauthorized srv res h0 hb h401]
    refine ⟨rfl, ?_, ?_, rfl⟩
    · simp [Header.lookup_Set, hloc]
    · simp [Header.Get_eq, Header.lookup_Set, hloc, Header.first]
  · intro err hb
    rw [handleResponseErrorStatus_readError srv res h0 err hb]
    exact ⟨rfl, rfl, rfl⟩
  · cases hb : res.Body.err with
    | some err =>
      rw [handleResponseErrorStatus_readError srv res h0 err hb]
      intro h
      cases h
    | none =>
      rw [handleResponseErrorStatus_unauthorized srv res h0 hb h401]
      intro h
      cases h

/-- C1 amended, at a 401 with headers and a body: the reply is the redirect. -/
theorem C1_unauthorized_redirect_witness :
    ((serverWith (answering ⟨401, ⟨[("Location", ["http://elsewhere"])]⟩,
          ⟨[110, 111], none⟩⟩)).decisionHandler netURL
        (Reply.fresh Header.empty) probe).rw.status = some 307 ∧
    ((serverWith (answering ⟨401, ⟨[("Location", ["http://elsewhere"])]⟩,
          ⟨[110, 111], none⟩⟩)).decisionHandler netURL
        (Reply.fresh Header.empty) probe).rw.header.lookup "Location" =
      some ["https://login.example/"] :=
  have h := (C1_unauthorized_redirect netURL
    (serverWith (answering ⟨401, ⟨[("Location", ["http://elsewhere"])]⟩, ⟨[110, 111], none⟩⟩))
    Header.empty probe probeOut ⟨401, ⟨[("Location", ["http://elsewhere"])]⟩, ⟨[110, 111], none⟩⟩
    rfl rfl rfl).1 rfl
  ⟨h.1, h.2.1⟩

/-- C3, the claim as stated fails: a decision response with status 99 makes `WriteHeader`
panic, so no status and no body reach the caller; and the body of a 101 is not
sent. -/
theorem C3_status_99_panics :
    ((serverWith (answering ⟨99, Header.empty, ⟨[120], none⟩⟩)).decisionHandler netURL
        (Reply.fresh Header.empty) probe).panic = some "invalid WriteHeader code" ∧
    ((serverWith (answering ⟨99, Header.empty, ⟨[120], none⟩⟩)).decisionHandler netURL
        (Reply.fresh Header.empty) probe).rw.status = none ∧
    ((serverWith (answering ⟨99, Header.empty, ⟨[120], none⟩⟩)).decisionHandler netURL
        (Reply.fresh Header.empty) probe).rw.body = [] ∧
    ((serverWith (answering ⟨101, Header.empty, ⟨[120], none⟩⟩)).decisionHandler netURL
        (Reply.fresh Header.empty) probe).rw.status = some 101 ∧
    ((serverWith (answering ⟨101, Header.empty, ⟨[120], none⟩⟩)).decisionHandler netURL
        (Reply.fresh Header.empty) probe).rw.body = [] := by
  decide

/-- C3, amended: for every decision response whose status is from 100 to 999, neither 200
nor 401, and whose body is read as the bytes b, the handler does not panic, the
reply has that status and the header map it had before (nothing is copied from
the response, no Location is set), and its body is exactly b, except that no
body is sent with a 1xx, 204 or 304 status. -/
theorem C3_passthrough_of_sendable_status (parse : String → Except String String)
    (srv : Server) (h0 : Header) (r outreq0 : Request) (res : Response) (b : Bytes)
    (hreq : decisionRequest parse r srv.decisionUrl = .ok outreq0)
    (hdo : srv.c (srv.copyRequestHeaders r outreq0) = .ok res)
    (h200 : res.StatusCode ≠ 200) (h401 : res.StatusCode ≠ 401)
    (hlo : 100 ≤ res.StatusCode) (hhi : res.StatusCode ≤ 999)
    (hb : res.Body = ⟨b, none⟩) :
    (srv.decisionHandler parse (Reply.fresh h0) r).panic = none ∧
    (srv.decisionHandler parse (Reply.fresh h0) r).rw.status = some res.StatusCode ∧
    (srv.decisionHandler parse (Reply.fresh h0) r).rw.header = h0 ∧
    (bodyAllowedForStatus res.StatusCode = true →
      (srv.decisionHandler parse (Reply.fresh h0) r).rw.body = b) ∧
    (bodyAllowedForStatus res.StatusCode = false →
      (srv.decisionHandler parse (Reply.fresh h0) r).rw.body = []) := by
  rw [decisionHandler_response parse srv _ r outreq0 res hreq hdo]
  simp only [h200, ne_eq, not_false_eq_true, if_true]
  have herr : res.Body.err = none := by rw [hb]
  have hd : res.Body.d = b := by rw [hb]
  rw [handleResponseErrorStatus_relay srv res h0 herr h401 hlo hhi, hd]
  refine ⟨rfl, rfl, rfl, ?_, ?_⟩
  · intro ha
    simp [ha]
  · intro ha
    simp [ha]

/-- C3 amended, at a 403 with body "forbidden" and a header of its own. -/
theorem C3_passthrough_of_sendable_status_witness :
    ((serverWith (answering ⟨403, ⟨[("X-Foo", ["bar"])]⟩,
          ⟨[102, 111, 114, 98, 105, 100, 100, 101, 110], none⟩⟩)).decisionHandler netURL
        (Reply.fresh ⟨[("X-Request-Id", ["7"])]⟩) probe).rw.status = some 403 ∧
    ((serverWith (answering ⟨403, ⟨[("X-Foo", ["bar"])]⟩,
          ⟨[102, 111, 114, 98, 105, 100, 100, 101, 110], none⟩⟩)).decisionHandler netURL
        (Reply.fresh ⟨[("X-Request-Id", ["7"])]⟩) probe).rw.header =
      ⟨[("X-Request-Id", ["7"])]⟩ ∧
    ((serverWith (answering ⟨403, ⟨[("X-Foo", ["bar"])]⟩,
          ⟨[102, 111, 114, 98, 105, 100, 100, 101, 110], none⟩⟩)).decisionHandler netURL
        (Reply.fresh ⟨[("X-Request-Id", ["7"])]⟩) probe).rw.body =
      [102, 111, 114, 98, 105, 100, 100, 101, 110] :=
  have h := C3_passthrough_of_sendable_status netURL
    (serverWith (answering ⟨403, ⟨[("X-Foo", ["bar"])]⟩,
      ⟨[102, 111, 114, 98, 105, 100, 100, 101, 110], none⟩⟩))
    ⟨[("X-Request-Id", ["7"])]⟩ probe probeOut
    ⟨403, ⟨[("X-Foo", ["bar"])]⟩, ⟨[102, 111, 114, 98, 105, 100, 100, 101, 110], none⟩⟩
    [102, 111, 114, 98, 105, 100, 100, 101, 110] rfl rfl (by decide) (by decide)
    (by decide) (by decide) rfl
  ⟨h.2.1, h.2.2.1, h.2.2.2.1 (by decide)⟩

/-- C4: each per-request failure gives a 500 with nothing relayed.  If `decisionRequest`
fails, the reply is 500 with an empty body and the headers it had, and no request
is handed to the client.  If the client's `Do` fails, the same reply, after that
one attempt.  If the response body was read and the read failed, the same reply,
whatever bytes the read returned before failing. -/
theorem C4_failures_give_500 (parse : String → Except String String) (srv : Server)
    (h0 : Header) (r : Request) :
    (∀ err, decisionRequest parse r srv.decisionUrl = .error err →
      (srv.decisionHandler parse (Reply.fresh h0) r).rw =
        { header := h0, status := some 500, body := [] } ∧
      (srv.decisionHandler parse (Reply.fresh h0) r).sent = []) ∧
    (∀ outreq0 err, decisionRequest parse r srv.decisionUrl = .ok outreq0 →
      srv.c (srv.copyRequestHeaders r outreq0) = .error err →
      (srv.decisionHandler parse (Reply.fresh h0) r).rw =
        { header := h0, status := some 500, body := [] } ∧
      (srv.decisionHandler parse (Reply.fresh h0) r).sent =
        [srv.copyRequestHeaders r outreq0]) ∧
    (∀ readSoFar err,
      (srv.decisionHandler parse (Reply.fresh h0) r).read = some ⟨readSoFar, some err⟩ →
      (srv.decisionHandler parse (Reply.fresh h0) r).rw =
        { header := h0, status := some 500, body := [] }) := by
  refine ⟨?_, ?_, ?_⟩
  · intro err hreq
    rw [decisionHandler_buildError parse srv _ r err hreq]
    exact ⟨rfl, rfl⟩
  · intro outreq0 err hreq hdo
    rw [decisionHandler_doError parse srv _ r outreq0 err hreq hdo]
    exact ⟨rfl, rfl⟩
  · intro readSoFar err
    cases hreq : decisionRequest parse r srv.decisionUrl with
    | error e1 =>
      rw [decisionHandler_buildError parse srv _ r e1 hreq]
      intro h; cases h
    | ok outreq0 =>
      cases hdo : srv.c (srv.copyRequestHeaders r outreq0) with
      | error e2 =>
        rw [decisionHandler_doError parse srv _ r outreq0 e2 hreq hdo]
        intro h; cases h
      | ok res =>
        rw [decisionHandler_response parse srv _ r outreq0 res hreq hdo]
        by_cases h200 : res.StatusCode = 200
        · simp only [h200, ne_eq, not_true_eq_false, if_false]
          intro h; cases h
        · simp only [h200, ne_eq, not_false_eq_true, if_true]
          intro h
          have hb : res.Body = ⟨readSoFar, some err⟩ := by injection h
          rw [handleResponseErrorStatus_readError srv res h0 err (by rw [hb])]

/-- C4 at three concrete failures: a forwarded URI with a tab, which net/url refuses, an
unreachable decision service, and a 403 whose body cannot be read. -/
theorem C4_failures_give_500_witness :
    (((serverWith unreachable).decisionHandler netURL
        (Reply.fresh Header.empty) tabProbe).rw.status = some 500 ∧
      ((serverWith unreachable).decisionHandler netURL
        (Reply.fresh Header.empty) tabProbe).sent = []) ∧
    ((serverWith unreachable).decisionHandler netURL
        (Reply.fresh Header.empty) probe).rw.status = some 500 ∧
    ((serverWith (answering ⟨403, ⟨[("X-Foo", ["bar"])]⟩,
          ⟨[60, 104], some "unexpected EOF"⟩⟩)).decisionHandler netURL
        (Reply.fresh Header.empty) probe).rw =
      { header := Header.empty, status := some 500, body := [] } :=
  ⟨⟨congrArg Reply.status
      ((C4_failures_give_500 netURL (serverWith unreachable) Header.empty tabProbe).1
        "net/url: invalid control character in URL" rfl).1,
    ((C4_failures_give_500 netURL (serverWith unreachable) Header.empty tabProbe).1
        "net/url: invalid control character in URL" rfl).2⟩,
   congrArg Reply.status
    ((C4_failures_give_500 netURL (serverWith unreachable) Header.empty probe).2.1
      probeOut "connection refused" rfl rfl).1,
   (C4_failures_give_500 netURL
      (serverWith (answering ⟨403, ⟨[("X-Foo", ["bar"])]⟩, ⟨[60, 104], some "unexpected EOF"⟩⟩))
      Header.empty probe).2.2 [60, 104] "unexpected EOF" rfl⟩

/-- C2: for every decision response with status 200 whose header map holds each name once
(up to case), and every entry of it with name h and a non-empty value list, if
`Get(h)` on the reply was empty before the merge then the final reply has status
200, an empty body, and under h the single value made of the entry's values
joined by ",". -/
theorem C2_allow_copies_header (parse : String → Except String String) (srv : Server)
    (h0 : Header) (r outreq0 : Request) (res : Response)
    (hreq : decisionRequest parse r srv.decisionUrl = .ok outreq0)
    (hdo : srv.c (srv.copyRequestHeaders r outreq0) = .ok res)
    (h200 : res.StatusCode = 200) (hwf : res.Header.CanonNodup)
    (h : String) (v : List String) (hmem : (h, v) ∈ res.Header.entries) (hv : v ≠ [])
    (hunset : h0.Get h = "") :
    (srv.decisionHandler parse (Reply.fresh h0) r).rw.status = some 200 ∧
    (srv.decisionHandler parse (Reply.fresh h0) r).rw.body = [] ∧
    (srv.decisionHandler parse (Reply.fresh h0) r).rw.header.lookup
        (CanonicalMIMEHeaderKey h) = some [String.intercalate "," v] ∧
    (srv.decisionHandler parse (Reply.fresh h0) r).rw.header.Get h =
      String.intercalate "," v := by
  rw [decisionHandler_response parse srv _ r outreq0 res hreq hdo]
  simp only [h200, ne_eq, not_true_eq_false, if_false]
  have hl : (res.Header.entries.foldl copyResponseHeader h0).lookup (CanonicalMIMEHeaderKey h) =
      some [String.intercalate "," v] := by
    have := foldl_copyResponseHeader_touched res.Header.entries h0 hwf (h, v) hmem
    rw [this]
    have hu : Header.first (h0.lookup (CanonicalMIMEHeaderKey h)) = "" := hunset
    simp [hu, hv]
  refine ⟨rfl, rfl, hl, ?_⟩
  show Header.first ((res.Header.entries.foldl copyResponseHeader h0).lookup
    (CanonicalMIMEHeaderKey h)) = _
  rw [hl]
  rfl

/-- C2 at a 200 carrying X-Foo: bar and a two-valued Vary, on a reply without them. -/
theorem C2_allow_copies_header_witness :
    ((serverWith (answering ⟨200, ⟨[("X-Foo", ["bar"]), ("Vary", ["a", "b"])]⟩,
          ⟨[], none⟩⟩)).decisionHandler netURL
        (Reply.fresh ⟨[("X-Request-Id", ["7"])]⟩) probe).rw.status = some 200 ∧
    ((serverWith (answering ⟨200, ⟨[("X-Foo", ["bar"]), ("Vary", ["a", "b"])]⟩,
          ⟨[], none⟩⟩)).decisionHandler netURL
        (Reply.fresh ⟨[("X-Request-Id", ["7"])]⟩) probe).rw.header.lookup "Vary" =
      some ["a,b"] :=
  have h := C2_allow_copies_header netURL
    (serverWith (answering ⟨200, ⟨[("X-Foo", ["bar"]), ("Vary", ["a", "b"])]⟩, ⟨[], none⟩⟩))
    ⟨[("X-Request-Id", ["7"])]⟩ probe probeOut
    ⟨200, ⟨[("X-Foo", ["bar"]), ("Vary", ["a", "b"])]⟩, ⟨[], none⟩⟩ rfl rfl rfl (by decide)
    "Vary" ["a", "b"] (by decide) (by decide) (by decide)
  ⟨h.1, h.2.2.1⟩

/-- C5, the claim as stated fails: a reply that already carries X-Foo with the empty
string as its value has it overwritten by the decision response's X-Foo: bar. -/
theorem C5_empty_value_overwritten :
    (Reply.fresh ⟨[("X-Foo", [""])]⟩).header.lookup "X-Foo" = some [""] ∧
    (copyResponseHeaders ⟨200, ⟨[("X-Foo", ["bar"])]⟩, ⟨[], none⟩⟩
      (Reply.fresh ⟨[("X-Foo", [""])]⟩)).header.lookup "X-Foo" = some ["bar"] := by
  decide

/-- C5, amended: first-write-wins for non-empty values.  For every decision response and
every header name h for which `Get(h)` on the reply is non-empty before the merge
(names matched up to case), `copyResponseHeaders` leaves the reply's values for h
unchanged; so does the handler on a 200. -/
theorem C5_first_write_wins (res : Response) (rw : Reply) (h : String)
    (hset : rw.header.Get h ≠ "") :
    (copyResponseHeaders res rw).header.lookup (CanonicalMIMEHeaderKey h) =
      rw.header.lookup (CanonicalMIMEHeaderKey h) ∧
    (copyResponseHeaders res rw).header.Get h = rw.header.Get h ∧
    (∀ (parse : String → Except String String) (srv : Server) (r outreq0 : Request),
      decisionRequest parse r srv.decisionUrl = .ok outreq0 →
      srv.c (srv.copyRequestHeaders r outreq0) = .ok res →
      res.StatusCode = 200 →
      (srv.decisionHandler parse rw r).rw.header.Get h = rw.header.Get h) := by
  have hl : (res.Header.entries.foldl copyResponseHeader rw.header).lookup
      (CanonicalMIMEHeaderKey h) = rw.header.lookup (CanonicalMIMEHeaderKey h) :=
    foldl_copyResponseHeader_kept res.Header.entries rw.header _ hset
  have hg : (copyResponseHeaders res rw).header.Get h = rw.header.Get h := by
    show Header.first ((res.Header.entries.foldl copyResponseHeader rw.header).lookup
      (CanonicalMIMEHeaderKey h)) = _
    rw [hl]
    rfl
  refine ⟨hl, hg, ?_⟩
  intro parse srv r outreq0 hreq hdo h200
  rw [decisionHandler_response parse srv _ r outreq0 res hreq hdo]
  simp only [h200, ne_eq, not_true_eq_false, if_false]
  show (Reply.WriteHeader (copyResponseHeaders res rw) 200).1.header.Get h = _
  rw [Reply.WriteHeader_header]
  exact hg

/-- C5 amended, at reply X-Foo: baz and decision x-foo: bar: the reply keeps baz. -/
theorem C5_first_write_wins_witness :
    (Reply.fresh ⟨[("X-Foo", ["baz"])]⟩).header.Get "x-foo" ≠ "" ∧
    (copyResponseHeaders ⟨200, ⟨[("x-foo", ["bar"])]⟩, ⟨[], none⟩⟩
      (Reply.fresh ⟨[("X-Foo", ["baz"])]⟩)).header.lookup "X-Foo" = some ["baz"] :=
  ⟨by decide,
    (C5_first_write_wins ⟨200, ⟨[("x-foo", ["bar"])]⟩, ⟨[], none⟩⟩
      (Reply.fresh ⟨[("X-Foo", ["baz"])]⟩) "x-foo" (by decide)).1⟩

/-- C8: after `copyRequestHeaders` on the request `decisionRequest` built, the headers are
exactly the allowlisted ones with a non-empty inbound value.  For every allowlist
name h whose inbound `Get(h)` is a non-empty v, the request holds the single value
v under h, also when the request had a prior value for h; and every entry the
request holds is such a pair: its name is an allowlist name, taken in the
canonical form under which net/http stores header names, and its value that
name's non-empty inbound value; when the allowlist names are written in
canonical form, the name is literally a member of the allowlist. -/
theorem C8_request_headers_exact (parse : String → Except String String) (srv : Server)
    (inreq outreq0 : Request)
    (hreq : decisionRequest parse inreq srv.decisionUrl = .ok outreq0) :
    (∀ h ∈ srv.copyHeaders, inreq.Header.Get h ≠ "" →
      (srv.copyRequestHeaders inreq outreq0).Header.lookup (CanonicalMIMEHeaderKey h) =
        some [inreq.Header.Get h] ∧
      (srv.copyRequestHeaders inreq outreq0).Header.Get h = inreq.Header.Get h) ∧
    (∀ (prior : Request), ∀ h ∈ srv.copyHeaders, inreq.Header.Get h ≠ "" →
      (srv.copyRequestHeaders inreq prior).Header.lookup (CanonicalMIMEHeaderKey h) =
        some [inreq.Header.Get h]) ∧
    (∀ k vs, (srv.copyRequestHeaders inreq outreq0).Header.lookup k = some vs →
      ∃ h ∈ srv.copyHeaders, CanonicalMIMEHeaderKey h = k ∧ inreq.Header.Get h ≠ "" ∧
        vs = [inreq.Header.Get h]) ∧
    ((∀ h ∈ srv.copyHeaders, CanonicalMIMEHeaderKey h = h) →
      ∀ k vs, (srv.copyRequestHeaders inreq outreq0).Header.lookup k = some vs →
        k ∈ srv.copyHeaders ∧ inreq.Header.Get k ≠ "") := by
  have hempty : outreq0.Header = Header.empty :=
    decisionRequest_fresh parse inreq srv.decisionUrl outreq0 hreq
  have hset : ∀ (prior : Request), ∀ h ∈ srv.copyHeaders, inreq.Header.Get h ≠ "" →
      (srv.copyRequestHeaders inreq prior).Header.lookup (CanonicalMIMEHeaderKey h) =
        some [inreq.Header.Get h] := by
    intro prior h hh hv
    rw [copyRequestHeaders_eq,
      foldl_copyRequestHeader_touched inreq srv.copyHeaders prior _ ⟨h, hh, rfl, hv⟩]
    rfl
  have honly : ∀ k vs, (srv.copyRequestHeaders inreq outreq0).Header.lookup k = some vs →
      ∃ h ∈ srv.copyHeaders, CanonicalMIMEHeaderKey h = k ∧ inreq.Header.Get h ≠ "" ∧
        vs = [inreq.Header.Get h] := ?_
  refine ⟨?_, hset, honly, ?_⟩
  · intro h hh hv
    refine ⟨hset outreq0 h hh hv, ?_⟩
    rw [Header.Get_eq, hset outreq0 h hh hv]
    rfl
  · intro hcanon k vs hk
    obtain ⟨h, hh, hc, hv, _⟩ := honly k vs hk
    have hkh : h = k := (hcanon h hh).symm.trans hc
    subst hkh
    exact ⟨hh, hv⟩
  · intro k vs hk
    by_cases hex : ∃ h ∈ srv.copyHeaders, CanonicalMIMEHeaderKey h = k ∧
        inreq.Header.Get h ≠ ""
    · obtain ⟨h, hh, hc, hv⟩ := hex
      refine ⟨h, hh, hc, hv, ?_⟩
      subst hc
      rw [hset outreq0 h hh hv] at hk
      injection hk with hk
      exact hk.symm
    · have hno : ∀ h ∈ srv.copyHeaders, CanonicalMIMEHeaderKey h = k →
          inreq.Header.Get h = "" := by
        intro h hh hc
        by_contra hne
        exact hex ⟨h, hh, hc, hne⟩
      rw [copyRequestHeaders_eq,
        foldl_copyRequestHeader_untouched inreq srv.copyHeaders outreq0 k hno, hempty] at hk
      cases hk

/-- C8 at a probe carrying Cookie (allowlisted as "cookie") and Accept (not allowlisted). -/
theorem C8_request_headers_exact_witness :
    decisionRequest netURL probe (serverWith unreachable).decisionUrl = .ok probeOut ∧
    ((serverWith unreachable).copyRequestHeaders probe probeOut).Header.lookup "Cookie" =
      some ["sid=1"] :=
  ⟨rfl, ((C8_request_headers_exact netURL (serverWith unreachable) probe probeOut rfl).1
    "cookie" (by decide) (by decide)).1⟩

/-- C9, the claim as stated fails: when the decision service answers with status 99 the
handler panics in `WriteHeader`, nothing is written to the caller and the counter
is not incremented under any label pair. -/
theorem C9_status_99_not_counted :
    ((serverWith (answering ⟨99, Header.empty, ⟨[], none⟩⟩)).decisionRoute netURL
        (fun _ _ => 0) (Reply.fresh Header.empty) probe).panic =
      some "invalid WriteHeader code" ∧
    ((serverWith (answering ⟨99, Header.empty, ⟨[], none⟩⟩)).decisionRoute netURL
        (fun _ _ => 0) (Reply.fresh Header.empty) probe).w.status = none ∧
    (∀ d k, ((serverWith (answering ⟨99, Header.empty, ⟨[], none⟩⟩)).decisionRoute netURL
        (fun _ _ => 0) (Reply.fresh Header.empty) probe).counter d k = 0) :=
  ⟨by decide, by decide, fun _ _ => rfl⟩

/-- C9, amended: behind the metrics middleware, started on a fresh reply, the handler
panics exactly when it does without the middleware, and it does not on a
construction failure, a transport error, a body-read failure, a 200, a 401, or
any status from 100 to 999.  On every run without a panic the reply is the one
the handler writes without the middleware, the status sent to the caller is the
status the recorder holds, and the counter grows by exactly 1 under the pair
(first value of the inbound X-Forwarded-Host entry, recorded status) and is
unchanged under every other pair.  In particular a transport error adds 1 under
(destination, 500). -/
theorem C9_counted_once_when_served (parse : String → Except String String)
    (srv : Server) (cnt : Counter) (h0 : Header) (r : Request) :
    (srv.decisionRoute parse cnt (Reply.fresh h0) r).panic =
      (srv.decisionHandler parse (Reply.fresh h0) r).panic ∧
    ((srv.decisionRoute parse cnt (Reply.fresh h0) r).panic = none →
      (srv.decisionRoute parse cnt (Reply.fresh h0) r).w =
        (srv.decisionHandler parse (Reply.fresh h0) r).rw ∧
      (srv.decisionRoute parse cnt (Reply.fresh h0) r).w.status =
        some (srv.decisionHandler parse
          ({ ResponseWriter := Reply.fresh h0, Status := 200 } : statusRecorder Reply)
          r).rw.Status ∧
      (srv.decisionRoute parse cnt (Reply.fresh h0) r).counter
          (Header.first (r.Header.lookup "X-Forwarded-Host"))
          (srv.decisionHandler parse
            ({ ResponseWriter := Reply.fresh h0, Status := 200 } : statusRecorder Reply)
            r).rw.Status =
        cnt (Header.first (r.Header.lookup "X-Forwarded-Host"))
          (srv.decisionHandler parse
            ({ ResponseWriter := Reply.fresh h0, Status := 200 } : statusRecorder Reply)
            r).rw.Status + 1 ∧
      (∀ d k, ¬ (d = Header.first (r.Header.lookup "X-Forwarded-Host") ∧
          k = (srv.decisionHandler parse
            ({ ResponseWriter := Reply.fresh h0, Status := 200 } : statusRecorder Reply)
            r).rw.Status) →
        (srv.decisionRoute parse cnt (Reply.fresh h0) r).counter d k = cnt d k)) ∧
    (∀ err, decisionRequest parse r srv.decisionUrl = .error err →
      (srv.decisionRoute parse cnt (Reply.fresh h0) r).panic = none ∧
      (srv.decisionRoute parse cnt (Reply.fresh h0) r).w.status = some 500) ∧
    (∀ outreq0 err, decisionRequest parse r srv.decisionUrl = .ok outreq0 →
      srv.c (srv.copyRequestHeaders r outreq0) = .error err →
      (srv.decisionRoute parse cnt (Reply.fresh h0) r).panic = none ∧
      (srv.decisionRoute parse cnt (Reply.fresh h0) r).w.status = some 500 ∧
      (srv.decisionRoute parse cnt (Reply.fresh h0) r).counter
          (Header.first (r.Header.lookup "X-Forwarded-Host")) 500 =
        cnt (Header.first (r.Header.lookup "X-Forwarded-Host")) 500 + 1) ∧
    (∀ outreq0 res, decisionRequest parse r srv.decisionUrl = .ok outreq0 →
      srv.c (srv.copyRequestHeaders r outreq0) = .ok res →
      (res.StatusCode = 200 ∨ res.StatusCode = 401 ∨ res.Body.err ≠ none ∨
        (100 ≤ res.StatusCode ∧ res.StatusCode ≤ 999)) →
      (srv.decisionRoute parse cnt (Reply.fresh h0) r).panic = none) := by
  have hhost : r.Header.Get xForwardedHost =
      Header.first (r.Header.lookup "X-Forwarded-Host") := by
    have e1 : CanonicalMIMEHeaderKey xForwardedHost = "X-Forwarded-Host" := by decide
    rw [Header.Get_eq, e1]
  obtain ⟨_, _, hstatus⟩ := decisionHandler_recorded parse srv h0 r
  have hpanic : (srv.decisionRoute parse cnt (Reply.fresh h0) r).panic =
      (srv.decisionHandler parse (Reply.fresh h0) r).panic := by
    cases hp : (srv.decisionHandler parse (Reply.fresh h0) r).panic with
    | none => rw [decisionRoute_served parse srv cnt h0 r hp]
    | some p => rw [decisionRoute_panicked parse srv cnt h0 r p hp]
  refine ⟨hpanic, ?_, ?_, ?_, ?_⟩
  · intro hnone
    have hnp : (srv.decisionHandler parse (Reply.fresh h0) r).panic = none := by
      rw [← hpanic]; exact hnone
    rw [decisionRoute_served parse srv cnt h0 r hnp, hhost]
    refine ⟨rfl, hstatus hnp, ?_, ?_⟩
    · exact Counter.Add_same _ _ _ _
    · intro d k hne
      exact Counter.Add_other _ _ _ _ _ _ hne
  · intro err hreq
    have hrun := decisionHandler_buildError_reply parse srv h0 r err hreq
    have hnp : (srv.decisionHandler parse (Reply.fresh h0) r).panic = none := by rw [hrun]
    rw [decisionRoute_served parse srv cnt h0 r hnp, hrun]
    exact ⟨rfl, rfl⟩
  · intro outreq0 err hreq hdo
    have hrun := decisionHandler_doError_reply parse srv h0 r outreq0 err hreq hdo
    have hnp : (srv.decisionHandler parse (Reply.fresh h0) r).panic = none := by rw [hrun]
    have h500 : (srv.decisionHandler parse
        ({ ResponseWriter := Reply.fresh h0, Status := 200 } : statusRecorder Reply)
        r).rw.Status = 500 := by
      rw [decisionHandler_doError parse srv _ r outreq0 err hreq hdo]
      rfl
    rw [decisionRoute_served parse srv cnt h0 r hnp, hrun, hhost, h500]
    exact ⟨rfl, rfl, Counter.Add_same _ _ _ _⟩
  · intro outreq0 res hreq hdo hcase
    rw [hpanic]
    exact decisionHandler_noPanic parse srv h0 r outreq0 res hreq hdo hcase

/-- C9 amended, at an unreachable decision service: one more request under
("app.example", 500). -/
theorem C9_counted_once_when_served_witness :
    ((serverWith unreachable).decisionRoute netURL (fun _ _ => 0)
        (Reply.fresh Header.empty) probe).panic = none ∧
    ((serverWith unreachable).decisionRoute netURL (fun _ _ => 0)
        (Reply.fresh Header.empty) probe).w.status = some 500 ∧
    ((serverWith unreachable).decisionRoute netURL (fun _ _ => 0)
        (Reply.fresh Header.empty) probe).counter "app.example" 500 = 1 :=
  (C9_counted_once_when_served netURL (serverWith unreachable) (fun _ _ => 0) Header.empty
    probe).2.2.2.1 probeOut "connection refused" rfl rfl

/-- C10: two runs of the handler on the same configuration, the same inbound request and
the same answer of the decision service (its header map holding each name once up
to case) produce the same reply: same status, same body, same values under every
header name, whatever the order of the allowlist built by `New` and whatever the
order in which the response's header map is visited.  The two runs also hand the
same request to the client, and one panics exactly when the other does. -/
theorem C10_reply_deterministic (parse : String → Except String String) (cfg : Config)
    (order1 order2 : RangeOrder) (c1 c2 : Client) (srv1 srv2 : Server)
    (hs1 : New order1 (.ok ()) c1 cfg = .ok srv1)
    (hs2 : New order2 (.ok ()) c2 cfg = .ok srv2)
    (r : Request) (h0 : Header)
    (hsame : ∀ outreq0, decisionRequest parse r cfg.ForwardAddress = .ok outreq0 →
      sameAnswer (c1 (srv1.copyRequestHeaders r outreq0))
        (c2 (srv2.copyRequestHeaders r outreq0)))
    (hwf : ∀ outreq0 res, decisionRequest parse r cfg.ForwardAddress = .ok outreq0 →
      c1 (srv1.copyRequestHeaders r outreq0) = .ok res → res.Header.CanonNodup) :
    sameReply (srv1.decisionHandler parse (Reply.fresh h0) r).rw
      (srv2.decisionHandler parse (Reply.fresh h0) r).rw ∧
    List.Forall₂ sameRequest (srv1.decisionHandler parse (Reply.fresh h0) r).sent
      (srv2.decisionHandler parse (Reply.fresh h0) r).sent ∧
    (srv1.decisionHandler parse (Reply.fresh h0) r).panic =
      (srv2.decisionHandler parse (Reply.fresh h0) r).panic := by
  obtain ⟨hp1, hc1, hu1, hr1⟩ := New_copyHeaders order1 c1 cfg srv1 hs1
  obtain ⟨hp2, hc2, hu2, hr2⟩ := New_copyHeaders order2 c2 cfg srv2 hs2
  have hperm : srv1.copyHeaders.Perm srv2.copyHeaders := hp1.trans hp2.symm
  cases hreq : decisionRequest parse r cfg.ForwardAddress with
  | error e1 =>
    rw [decisionHandler_buildError parse srv1 _ r e1 (by rw [hu1]; exact hreq),
      decisionHandler_buildError parse srv2 _ r e1 (by rw [hu2]; exact hreq)]
    exact ⟨⟨rfl, rfl, fun _ => rfl⟩, List.Forall₂.nil, rfl⟩
  | ok outreq0 =>
    have hreq1 : decisionRequest parse r srv1.decisionUrl = .ok outreq0 := by
      rw [hu1]; exact hreq
    have hreq2 : decisionRequest parse r srv2.decisionUrl = .ok outreq0 := by
      rw [hu2]; exact hreq
    have hq : sameRequest (srv1.copyRequestHeaders r outreq0)
        (srv2.copyRequestHeaders r outreq0) := by
      obtain ⟨a1, a2, a3⟩ := foldl_copyRequestHeader_fields r srv1.copyHeaders outreq0
      obtain ⟨b1, b2, b3⟩ := foldl_copyRequestHeader_fields r srv2.copyHeaders outreq0
      exact ⟨a1.trans b1.symm, a2.trans b2.symm, a3.trans b3.symm,
        fun k => foldl_copyRequestHeader_perm r _ _ outreq0 hperm k⟩
    have hsent : List.Forall₂ sameRequest [srv1.copyRequestHeaders r outreq0]
        [srv2.copyRequestHeaders r outreq0] := List.Forall₂.cons hq List.Forall₂.nil
    have hans := hsame outreq0 hreq
    have hnd := hwf outreq0
    cases hdo1 : c1 (srv1.copyRequestHeaders r outreq0) with
    | error e2 =>
      cases hdo2 : c2 (srv2.copyRequestHeaders r outreq0) with
      | error e3 =>
        rw [decisionHandler_doError parse srv1 _ r outreq0 e2 hreq1 (by rw [hc1]; exact hdo1),
          decisionHandler_doError parse srv2 _ r outreq0 e3 hreq2 (by rw [hc2]; exact hdo2)]
        exact ⟨⟨rfl, rfl, fun _ => rfl⟩, hsent, rfl⟩
      | ok res2 =>
        rw [hdo1, hdo2] at hans
        exact absurd hans (by simp [sameAnswer])
    | ok res1 =>
      cases hdo2 : c2 (srv2.copyRequestHeaders r outreq0) with
      | error e3 =>
        rw [hdo1, hdo2] at hans
        exact absurd hans (by simp [sameAnswer])
      | ok res2 =>
        rw [hdo1, hdo2] at hans
        obtain ⟨hst, hbody, hhdr⟩ := hans
        rw [decisionHandler_response parse srv1 _ r outreq0 res1 hreq1
            (by rw [hc1]; exact hdo1),
          decisionHandler_response parse srv2 _ r outreq0 res2 hreq2
            (by rw [hc2]; exact hdo2)]
        by_cases h200 : res1.StatusCode = 200
        · have h200b : res2.StatusCode = 200 := hst ▸ h200
          simp only [h200, h200b, ne_eq, not_true_eq_false, if_false]
          refine ⟨⟨rfl, rfl, ?_⟩, hsent, rfl⟩
          intro k
          exact foldl_copyResponseHeader_perm _ _ h0 hhdr (hnd res1 hreq hdo1) k
        · have h200b : ¬ res2.StatusCode = 200 := hst ▸ h200
          simp only [h200, h200b, ne_eq, not_false_eq_true, if_true]
          have hrun : srv1.handleResponseErrorStatus res1 (Reply.fresh h0) =
              srv2.handleResponseErrorStatus res2 (Reply.fresh h0) := by
            unfold Server.handleResponseErrorStatus
            rw [← hbody, ← hst, hr1, hr2]
          rw [hrun]
          exact ⟨⟨rfl, rfl, fun _ => rfl⟩, hsent, rfl⟩

/-- C10 at two runs that differ in both orders: the allowlist visited in insertion order
and in reverse, the response's header map visited as X-A, X-B and as X-B, X-A. -/
theorem C10_reply_deterministic_witness :
    sameReply
      ((serverWith (answering ⟨200, ⟨[("X-A", ["1"]), ("X-B", ["2"])]⟩,
          ⟨[], none⟩⟩)).decisionHandler netURL (Reply.fresh Header.empty) probe).rw
      ((Server.mk "http://decision"
          ["cookie", "X-Forwarded-Method", "X-Forwarded-Uri", "X-Forwarded-Host",
            "X-Forwarded-Proto"]
          (answering ⟨200, ⟨[("X-B", ["2"]), ("X-A", ["1"])]⟩, ⟨[], none⟩⟩)
          "https://login.example/").decisionHandler netURL
        (Reply.fresh Header.empty) probe).rw :=
  (C10_reply_deterministic netURL
    { Address := ":8080", ForwardAddress := "http://decision",
      Headers := ["X-Forwarded-Proto", "X-Forwarded-Host", "X-Forwarded-Uri",
        "X-Forwarded-Method", "cookie", "cookie"],
      RedirectURL := "https://login.example/" }
    RangeOrder.insertion RangeOrder.reversed
    (answering ⟨200, ⟨[("X-A", ["1"]), ("X-B", ["2"])]⟩, ⟨[], none⟩⟩)
    (answering ⟨200, ⟨[("X-B", ["2"]), ("X-A", ["1"])]⟩, ⟨[], none⟩⟩)
    (serverWith (answering ⟨200, ⟨[("X-A", ["1"]), ("X-B", ["2"])]⟩, ⟨[], none⟩⟩))
    (Server.mk "http://decision"
      ["cookie", "X-Forwarded-Method", "X-Forwarded-Uri", "X-Forwarded-Host",
        "X-Forwarded-Proto"]
      (answering ⟨200, ⟨[("X-B", ["2"]), ("X-A", ["1"])]⟩, ⟨[], none⟩⟩)
      "https://login.example/")
    rfl rfl probe Header.empty
    (fun _ _ => ⟨rfl, rfl, List.Perm.swap _ _ _⟩)
    (fun _ res _ h => by
      have : res = ⟨200, ⟨[("X-A", ["1"]), ("X-B", ["2"])]⟩, ⟨[], none⟩⟩ := by
        injection h with h
        exact h.symm
      subst this
      decide)).1

end AuthForwarder
